import Mathlib

/-!
Shallow embedding of the AEM Forms EDS scaffolding tool
(`tools/importer`-style script, source file `forms-scaffolder.js`, given as
`src/unnamed/part_000`).  The script manipulates JSON documents: component
schema documents (`definitions` / `models`), the shared `_form.json` filter
document (edited by text surgery), and the `_component-definition.json`
registry (edited as a parsed document).
JSON document values are modelled by the inductive type `JVal`; JavaScript
objects are association lists in insertion order, with JS object-literal
semantics (`{...a, k: v}` overwrites an existing key in place, otherwise
appends) captured by `jsInsert` / `jsObjOf`.  `JVal.undef` stands for the
JavaScript `undefined` value where the script can store it in an object.
Strings are manipulated as `List Char` internally (the script only ever
deals with ASCII configuration text).
-/
inductive JVal where
  | str (s : String)
  | num (n : Int)
  | bool (b : Bool)
  | null
  | undef
  | arr (items : List JVal)
  | obj (entries : List (String × JVal))

namespace JVal

/-- Pretty name for the keys of an object association list. -/
def keysOf (es : List (String × JVal)) : List String := es.map Prod.fst

/-- JS property read `o[k]` on an object: first binding of the key
(`jsObjOf`-built objects never have duplicate keys). -/
def jsGet (es : List (String × JVal)) (k : String) : Option JVal :=
  (es.find? (fun p => p.1 = k)).map Prod.snd

/-- JS property write `o[k] = v`: overwrite in place when the key exists,
otherwise append at the end (JS objects preserve insertion order). -/
def jsInsert (es : List (String × JVal)) (k : String) (v : JVal) :
    List (String × JVal) :=
  if (keysOf es).contains k then
    es.map (fun p => if p.1 = k then (k, v) else p)
  else es ++ [(k, v)]

/-- JS object literal `{e₁, e₂, ...}` built from a flat entry list (spreads
already flattened by the caller): later entries overwrite earlier ones. -/
def jsObjOf (l : List (String × JVal)) : List (String × JVal) :=
  l.foldl (fun acc p => jsInsert acc p.1 p.2) []

/-- JS truthiness of a value. -/
def jsTruthy : JVal → Bool
  | .str s => s ≠ ""
  | .num n => n ≠ 0
  | .bool b => b
  | .null => false
  | .undef => false
  | .arr _ => true
  | .obj _ => true

/-- Entries contributed by a JS object-literal spread `{...v}`: objects
contribute their entries, arrays and strings contribute index-keyed
entries, all other values contribute nothing. -/
def spreadEntries : JVal → List (String × JVal)
  | .obj es => es
  | .arr l => l.enum.map (fun p => (toString p.1, p.2))
  | .str s => s.data.enum.map (fun p => (toString p.1, .str (String.mk [p.2])))
  | _ => []

/-- JS strict equality `v === s` against a string literal. -/
def jsStrEq (v : JVal) (s : String) : Bool :=
  match v with
  | .str t => t = s
  | _ => false

/-- Is the value a JSON array? -/
def isArr : JVal → Bool
  | .arr _ => true
  | _ => false

end JVal

/-!
## PathRewriter (`transformComponentPaths`, source lines 164–183)
`value.replace(/^\.\.\/form-common\//, '../../models/form-common/')` on the
value of every object entry whose key is literally `"..."` and whose value
is a string; every other value is rebuilt by the same recursive walk.
-/
/-- Strip a concrete expected leading run of characters, returning the
remainder on success (`none` when the text does not start with it). -/
def dropLead : List Char → List Char → Option (List Char)
  | [], s => some s
  | _ :: _, [] => none
  | p :: ps, c :: cs => if c = p then dropLead ps cs else none

/-- `s.replace(/^\.\.\/form-common\//, '../../models/form-common/')`:
anchored prefix rewrite, identity when the prefix is absent. -/
def rewriteFragmentPath (s : String) : String :=
  match dropLead "../form-common/".data s.data with
  | some rest => String.mk ("../../models/form-common/".data ++ rest)
  | none => s

mutual

/-- `transformComponentPaths` (source lines 164–183): recursive walk over a
document value rewriting base-component fragment-include paths.  Total by
construction (the source returns primitives unchanged and `null` through
the falsy guard `obj && typeof obj === 'object'`). -/
def transformComponentPaths : JVal → JVal
  | .arr l => .arr (transformComponentPathsList l)
  | .obj es => .obj (transformComponentPathsEntries es)
  | v => v
termination_by structural v => v

/-- `obj.map(transformComponentPaths)` over an array's items. -/
def transformComponentPathsList : List JVal → List JVal
  | [] => []
  | v :: vs => transformComponentPaths v :: transformComponentPathsList vs
termination_by structural l => l

/-- The `for (const [key, value] of Object.entries(obj))` loop: the entry
`key === '...' && typeof value === 'string'` gets the anchored prefix
rewrite, every other entry value recurses. -/
def transformComponentPathsEntries :
    List (String × JVal) → List (String × JVal)
  | [] => []
  | (k, v) :: rest =>
    (if k = "..." then
      match v with
      | .str s => (k, JVal.str (rewriteFragmentPath s))
      | _ => (k, transformComponentPaths v)
     else (k, transformComponentPaths v)) :: transformComponentPathsEntries rest
termination_by structural l => l

end

mutual

/-- No object entry anywhere in the value has key `"..."` with a string
value starting with `../form-common/` (the only shape the rewriter
changes). -/
def noFragmentRewrite : JVal → Bool
  | .arr l => noFragmentRewriteList l
  | .obj es => noFragmentRewriteEntries es
  | _ => true
termination_by structural v => v

def noFragmentRewriteList : List JVal → Bool
  | [] => true
  | v :: vs => noFragmentRewrite v && noFragmentRewriteList vs
termination_by structural l => l

def noFragmentRewriteEntries : List (String × JVal) → Bool
  | [] => true
  | (k, v) :: rest =>
    (if k = "..." then
      match v with
      | .str s => (dropLead "../form-common/".data s.data).isNone
      | _ => noFragmentRewrite v
     else noFragmentRewrite v) && noFragmentRewriteEntries rest
termination_by structural l => l

end

/-!
## NameTransformer / Validator (`transformComponentName`,
`formatComponentName`, `validateComponentName`, source lines 110–113 and
560–593)
The transform chain is trim, then toLowerCase, then the four global
regex replacements: whitespace runs to '-', strip of [^a-z0-9-_], hyphen
runs to '-', and removal of edge hyphens;
modelled character-wise over `List Char` (the regexes are ASCII character
classes; `Char.toLower` / `Char.isWhitespace` model the JS operations on
the ASCII range the tool works in).
-/
/-- The character class `[a-z0-9-_]` kept by the transform's strip step. -/
def isAllowedChar (c : Char) : Bool :=
  (97 ≤ c.toNat ∧ c.toNat ≤ 122) ∨ (48 ≤ c.toNat ∧ c.toNat ≤ 57) ∨
    c = '-' ∨ c = '_'

/-- `String.prototype.trim()`: drop whitespace from both ends. -/
def trimChars (l : List Char) : List Char :=
  ((l.dropWhile Char.isWhitespace).reverse.dropWhile Char.isWhitespace).reverse

/-- The whitespace-run replacement (\s+ to '-'): each maximal run becomes one
hyphen; the flag records whether the previous character was part of a
run already replaced. -/
def squashWsRuns : List Char → Bool → List Char
  | [], _ => []
  | c :: cs, prevWs =>
    if c.isWhitespace then
      (if prevWs then [] else ['-']) ++ squashWsRuns cs true
    else c :: squashWsRuns cs false

/-- The hyphen-run replacement (-+ to '-'): each maximal run becomes one hyphen. -/
def collapseHyphenRuns : List Char → Bool → List Char
  | [], _ => []
  | c :: cs, prevHy =>
    if c = '-' then
      (if prevHy then [] else ['-']) ++ collapseHyphenRuns cs true
    else c :: collapseHyphenRuns cs false

/-- The edge-hyphen removal (anchored -+ at either end): drop hyphens from both ends. -/
def stripEdgeHyphens (l : List Char) : List Char :=
  ((l.dropWhile (fun c => c = '-')).reverse.dropWhile (fun c => c = '-')).reverse

/-- `transformComponentName` (source lines 560–571), the single source of
truth for component identifiers.  Total: every string maps to a string
(the source returns `''` for non-string input, outside this model's
domain of strings). -/
def transformComponentName (rawName : String) : String :=
  String.mk
    (stripEdgeHyphens
      (collapseHyphenRuns
        ((squashWsRuns ((trimChars rawName.data).map Char.toLower) false).filter
          isAllowedChar)
        false))

/-- `formatComponentName` (source lines 111–113): capitalize the first
character and replace hyphens of the remainder by spaces. -/
def formatComponentName (componentName : String) : String :=
  match componentName.data with
  | [] => ""
  | c :: rest =>
    String.mk (c.toUpper :: rest.map (fun d => if d = '-' then ' ' else d))

/-- The spec's produced-name pattern `^[a-z][a-z0-9_-]*$` (claim side). -/
def matchesSpecNameRegex (s : String) : Bool :=
  match s.data with
  | [] => false
  | c :: rest => (97 ≤ c.toNat ∧ c.toNat ≤ 122) ∧ rest.all isAllowedChar

/-- `validateComponentName` (source lines 574–593) on an already
transformed name; `existingDirs` stands in for the
`blocks/form/components` directory listing consulted by
`checkComponentExists` (source lines 554–557).  Returns the violation
message, `none` meaning the source's `true`. -/
def validateComponentName (existingDirs : List String) (name : String) :
    Option String :=
  if name = "" then some "Component name is required"
  else if trimChars name.data = [] then
    some "Component name must contain at least one letter or number"
  else if !(match name.data with
            | c :: _ => (97 ≤ c.toNat ∧ c.toNat ≤ 122 : Bool)
            | [] => false) then
    some "Component name must start with a letter"
  else if existingDirs.contains name then
    some ("Component '" ++ name ++
      "' already exists. Please choose a different name.")
  else none

/-- No two adjacent characters of the list are both hyphens. -/
def NoHyphenRun (l : List Char) : Prop :=
  l.Chain' (fun a b => ¬(a = '-' ∧ b = '-'))

instance (l : List Char) : Decidable (NoHyphenRun l) := by
  unfold NoHyphenRun; infer_instance

/-- The full invariant satisfied by every transform output: only allowed
characters, no hyphen runs, no leading or trailing hyphen. -/
def producedNameInv (l : List Char) : Prop :=
  (∀ c ∈ l, isAllowedChar c = true) ∧ NoHyphenRun l ∧
    l.head? ≠ some '-' ∧ l.getLast? ≠ some '-'

/-- Character pipeline of `transformComponentName`, factored out of the
string wrapper for reasoning. -/
def transformNameChars (l : List Char) : List Char :=
  stripEdgeHyphens
    (collapseHyphenRuns
      ((squashWsRuns ((trimChars l).map Char.toLower) false).filter
        isAllowedChar)
      false)

/-!
## ConfigPatcher, filter-list patch (`updateFormJson`, source lines
682–732)
The source reads `_form.json` as text, finds the first match of the
anchored pattern (literal spans separated by whitespace runs, with the
component-list body captured as the longest run of characters other than
a closing bracket), and — when the target name is absent from the parsed
list — replaces the entire matched span by a re-emitted section at fixed
indentation.  `String.replace` with the same pattern replaces the same
leftmost match found by `String.match`, modelled as one find plus one
splice.  File I/O failures (also reported as `false`) are outside the
in-memory document model.
-/
/-- One pattern-match attempt at the head of the text: the pattern's
literal pieces and whitespace runs, then the captured `[^\]]*` body and
the closing bracket.  Returns (capture, text after the match). -/
def matchFiltersAt (s : List Char) : Option (List Char × List Char) :=
  match dropLead "\"filters\":".data s with
  | none => none
  | some r1 =>
    match dropLead "[".data (r1.dropWhile Char.isWhitespace) with
    | none => none
    | some r3 =>
      match dropLead "\x7b".data (r3.dropWhile Char.isWhitespace) with
      | none => none
      | some r5 =>
        match dropLead "\"id\":".data (r5.dropWhile Char.isWhitespace) with
        | none => none
        | some r7 =>
          match dropLead "\"form\",".data (r7.dropWhile Char.isWhitespace) with
          | none => none
          | some r9 =>
            match dropLead "\"components\":".data
                (r9.dropWhile Char.isWhitespace) with
            | none => none
            | some r11 =>
              match dropLead "[".data (r11.dropWhile Char.isWhitespace) with
              | none => none
              | some r13 =>
                match r13.dropWhile (fun c => ¬ c = ']') with
                | ']' :: post =>
                  some (r13.takeWhile (fun c => ¬ c = ']'), post)
                | _ => none

/-- Leftmost match of the filters pattern: (text before the match,
capture, text after the match). -/
def findFilters : List Char → Option (List Char × List Char × List Char)
  | [] =>
    match matchFiltersAt [] with
    | some (cap, post) => some ([], cap, post)
    | none => none
  | c :: cs =>
    match matchFiltersAt (c :: cs) with
    | some (cap, post) => some ([], cap, post)
    | none =>
      match findFilters cs with
      | some (pre, cap, post) => some (c :: pre, cap, post)
      | none => none

/-- `componentsString.split(',')`. -/
def splitCommaChars : List Char → List (List Char)
  | [] => [[]]
  | c :: cs =>
    if c = ',' then [] :: splitCommaChars cs
    else
      match splitCommaChars cs with
      | g :: gs => (c :: g) :: gs
      | [] => [[c]]

/-- `comp.trim().replace(/['"]/g, '')`: trim, then delete quote
characters. -/
def stripQuotesTrim (e : List Char) : List Char :=
  (trimChars e).filter (fun c => ¬ (c = '\'' ∨ c = '"'))

/-- The parsed component list of a captured body: split on commas, clean
each piece, keep the non-empty ones (source lines 693–696). -/
def parsedComponents (cap : List Char) : List (List Char) :=
  ((splitCommaChars cap).map stripQuotesTrim).filter (fun e => e.length > 0)

/-- `Array.prototype.join(',')`. -/
def joinCommaChars : List (List Char) → List Char
  | [] => []
  | [x] => x
  | x :: y :: xs => x ++ ',' :: joinCommaChars (y :: xs)

/-- The re-emitted `"filters"` section (source lines 701–709): fixed
framing, one quoted identifier per line at eight-space indentation. -/
def newFiltersSectionChars (comps : List (List Char)) : List Char :=
  "\"filters\": [\n    \x7b\n      \"id\": \"form\",\n      \"components\": [".data
    ++ joinCommaChars (comps.map (fun comp => "\n        \"".data ++ comp ++ ['"']))
    ++ "\n      ]".data

/-- `updateFormJson` (source lines 682–732) on the in-memory document
text: returns the resulting text and the source's boolean result.  No
match: warning, `false`, text unchanged.  Name already present: `true`,
text unchanged (no write).  Otherwise the whole matched span is replaced
by the re-emitted section with the name appended. -/
def updateFormJson (formJsonContent : String) (componentName : String) :
    String × Bool :=
  match findFilters formJsonContent.data with
  | none => (formJsonContent, false)
  | some (pre, cap, post) =>
    let currentComponents := parsedComponents cap
    if currentComponents.contains componentName.data then
      (formJsonContent, true)
    else
      (String.mk (pre ++
        newFiltersSectionChars (currentComponents ++ [componentName.data]) ++
        post), true)

/-!
## ConfigPatcher, registry patch (`updateComponentDefinition`, source
lines 735–771)
The source parses `_component-definition.json`, finds the group with id
`custom-components`, and appends a fragment-include entry for the new
component unless one with the exact include path exists; any structural
failure (missing section, or a `TypeError` from dereferencing a `null` /
`undefined` element) is caught and reported as `false` with no write.
The document is modelled as the parsed value.
-/
/-- Include path of the registry entry for a component (source line
745). -/
def componentEntryPath (componentName : String) : String :=
  "../blocks/form/components/" ++ componentName ++ "/_" ++ componentName ++
    ".json#/definitions"

/-- `groups.find(group => group.id === 'custom-components')`: first
matching group's entries; `null` / `undefined` elements make the source
throw a `TypeError` (reported as failure), primitives simply never
match. -/
def findCustomGroup : List JVal → Except String (Option (List (String × JVal)))
  | [] => .ok none
  | g :: gs =>
    match g with
    | .null => .error "TypeError"
    | .undef => .error "TypeError"
    | .obj ges =>
      if (match JVal.jsGet ges "id" with
          | some v => JVal.jsStrEq v "custom-components"
          | none => false) then .ok (some ges)
      else findCustomGroup gs
    | _ => findCustomGroup gs

/-- `customGroup.components.find(comp => comp["..."] === path)` as an
existence check, with the same `TypeError` behavior on `null` /
`undefined` elements. -/
def findEntryWithPath : List JVal → String → Except String Bool
  | [], _ => .ok false
  | c :: cs, path =>
    match c with
    | .null => .error "TypeError"
    | .undef => .error "TypeError"
    | .obj ces =>
      if (match JVal.jsGet ces "..." with
          | some v => JVal.jsStrEq v path
          | none => false) then .ok true
      else findEntryWithPath cs path
    | _ => findEntryWithPath cs path

/-- `customGroup.components.push(entry)`, realized on the group's entry
list. -/
def pushIntoComponents (ges : List (String × JVal)) (entry : JVal) :
    List (String × JVal) :=
  ges.map (fun p =>
    if p.1 = "components" then
      (p.1, match p.2 with
            | .arr comps => JVal.arr (comps ++ [entry])
            | v => v)
    else p)

/-- In-place mutation of the first `custom-components` group found by the
source's `find`. -/
def appendToCustomGroup (groups : List JVal) (entry : JVal) : List JVal :=
  match groups with
  | [] => []
  | g :: gs =>
    match g with
    | .obj ges =>
      if (match JVal.jsGet ges "id" with
          | some v => JVal.jsStrEq v "custom-components"
          | none => false) then .obj (pushIntoComponents ges entry) :: gs
      else g :: appendToCustomGroup gs entry
    | _ => g :: appendToCustomGroup gs entry

/-- `updateComponentDefinition` (source lines 735–771) on the parsed
registry document: returns the resulting document value and the source's
boolean result.  When an entry with the exact include path already
exists the source logs and returns `true` without writing; structural
failures return `false` without writing. -/
def updateComponentDefinition (componentDef : JVal) (componentName : String) :
    JVal × Bool :=
  match componentDef with
  | .obj docEntries =>
    match JVal.jsGet docEntries "groups" with
    | some (.arr groups) =>
      match findCustomGroup groups with
      | .error _ => (componentDef, false)
      | .ok none => (componentDef, false)
      | .ok (some ges) =>
        match JVal.jsGet ges "components" with
        | some (.arr comps) =>
          match findEntryWithPath comps (componentEntryPath componentName) with
          | .error _ => (componentDef, false)
          | .ok true => (componentDef, true)
          | .ok false =>
            (.obj (docEntries.map (fun p =>
              if p.1 = "groups" then
                (p.1, JVal.arr (appendToCustomGroup groups
                  (.obj [("...", .str (componentEntryPath componentName))])))
              else p)), true)
        | _ => (componentDef, false)
    | _ => (componentDef, false)
  | _ => (componentDef, false)

/-- A canonical-format filter document with the single registered
component `a` (shape of the repository's `_form.json`). -/
def formDocEx : String :=
  "\"filters\": [\n    \x7b\n      \"id\": \"form\",\n      \"components\": [\n        \"a\"\n      ]\n    \x7d\n  ]"

/-- The captured list body of `formDocEx`. -/
def formDocExCap : List Char := "\n        \"a\"\n      ".data

/-- The text after the matched span of `formDocEx`. -/
def formDocExPost : List Char := "\n    \x7d\n  ]".data

/-- A filter document whose framing is legal for the pattern but not in
the fixed format the patch re-emits. -/
def formDocOneLine : String :=
  "\"filters\": [ \x7b\"id\": \"form\", \"components\": [\"a\"]\x7d]"

/-- A registry document in which component `a` is already registered in
the `custom-components` group. -/
def regDocEx : JVal :=
  .obj [("groups", .arr [
    .obj [("id", .str "custom-components"),
          ("components", .arr [.obj [("...", .str (componentEntryPath "a"))]])]])]

/-!
## ComponentCatalog (`getComponentDefinition`, source lines 190–237, and
`getAllFormComponents`, source lines 243–291)
The form-components directory is a listing `ComponentDir` of filenames
with their parse result (`none` models a `JSON.parse` failure, an absent
filename models `ENOENT`); the shared module-level `componentCache` is
threaded explicitly.  Error messages reproduce the source's
classification (not-found versus wrapped load failure).
-/
/-- `identifier.startsWith(p)` (character-wise). -/
def strStartsWith (s pre : String) : Bool := (dropLead pre.data s.data).isSome

/-- `identifier.endsWith(p)` (character-wise). -/
def strEndsWith (s suf : String) : Bool :=
  (dropLead suf.data.reverse s.data.reverse).isSome

/-- Filename derivation of `getComponentDefinition` (source lines
197–203): exact filename when one is supplied, else the fixed
`_<id>.json` convention. -/
def deriveFilename (identifier : String) : String :=
  if strStartsWith identifier "_" && strEndsWith identifier ".json" then
    identifier
  else "_" ++ identifier ++ ".json"

/-- The cached record built by `getComponentDefinition` (source lines
218–225).  `models` is `componentData.models || []`, kept as whatever
truthy value the document holds; `model` is `componentData.models?.[0]`
(`none` = `undefined`). -/
structure ComponentData where
  filename : String
  identifier : String
  definitions : List JVal
  models : JVal
  definition : JVal
  model : Option JVal

/-- The parsed form-components directory: filename to parse result
(`none` = unparseable text), absent = no such file. -/
abbrev ComponentDir := List (String × Option JVal)

/-- The module-level `componentCache` map. -/
abbrev Cache := List (String × ComponentData)

def lookupFile (fs : ComponentDir) (filename : String) : Option (Option JVal) :=
  (fs.find? (fun p => p.1 = filename)).map Prod.snd

/-- JS `v?.[0]`: array head, string first character, object key "0";
`undefined` otherwise. -/
def jsIndex0 : JVal → Option JVal
  | .arr (x :: _) => some x
  | .str s =>
    match s.data with
    | [] => none
    | c :: _ => some (.str (String.mk [c]))
  | .obj es => JVal.jsGet es "0"
  | _ => none

/-- Plain JS property access `v.k`: `TypeError` on `null` / `undefined`,
`undefined` on primitives and missing keys. -/
def jsMember (v : JVal) (k : String) : Except String JVal :=
  match v with
  | .null => .error "TypeError"
  | .undef => .error "TypeError"
  | .obj es => .ok (match JVal.jsGet es k with | some x => x | none => .undef)
  | _ => .ok (.undef)

/-- Optional-chaining access `v?.k`. -/
def jsOptChain (v : JVal) (k : String) : JVal :=
  match v with
  | .null => .undef
  | .undef => .undef
  | .obj es => (match JVal.jsGet es k with | some x => x | none => .undef)
  | _ => (.undef)

/-- The non-cached branch of `getComponentDefinition` (source lines
195–236): derive the filename, read and parse the document, and build
the record after checking for a non-empty `definitions` array.  (A
non-object document reports the same missing-definitions class of
failure the source wraps out of its `try` block.) -/
def loadComponentFile (fs : ComponentDir) (identifier : String) :
    Except String ComponentData :=
  let filename := deriveFilename identifier
  match lookupFile fs filename with
  | none => .error ("Component definition not found: " ++ filename)
  | some none =>
    .error ("Could not load component definition " ++ filename ++
      ": parse error")
  | some (some doc) =>
    match doc with
    | .obj docEntries =>
      match JVal.jsGet docEntries "definitions" with
      | some (.arr defs) =>
        match defs with
        | [] =>
          .error ("Could not load component definition " ++ filename ++
            ": Invalid component structure in " ++ filename ++
            ": definitions array is empty")
        | d :: ds =>
          let modelsRaw :=
            match JVal.jsGet docEntries "models" with
            | some v => v
            | none => JVal.undef
          .ok
            { filename := filename
              identifier := identifier
              definitions := d :: ds
              models := if JVal.jsTruthy modelsRaw then modelsRaw
                        else .arr []
              definition := d
              model := jsIndex0 modelsRaw }
      | _ =>
        .error ("Could not load component definition " ++ filename ++
          ": Invalid component structure in " ++ filename ++
          ": missing definitions array")
    | _ =>
      .error ("Could not load component definition " ++ filename ++
        ": Invalid component structure in " ++ filename ++
        ": missing definitions array")

/-- `getComponentDefinition` (source lines 190–237): cache hit returns
the cached record untouched; otherwise the document is loaded and the
built record is cached keyed by the exact identifier passed in
(`componentCache.set` runs only on the success path, so every failure
leaves the cache untouched). -/
def getComponentDefinition (cache : Cache) (fs : ComponentDir)
    (identifier : String) : Except String ComponentData × Cache :=
  match cache.find? (fun p => p.1 = identifier) with
  | some p => (.ok p.2, cache)
  | none =>
    match loadComponentFile fs identifier with
    | .ok result => (.ok result, cache ++ [(identifier, result)])
    | .error e => (.error e, cache)

/-- The per-entry cache invariant of C10 (amended): non-empty
`definitions`, `definition` is its first element, and `models` is either
the empty-array default or the document's truthy `models` value. -/
def cacheEntryInvariant (d : ComponentData) : Prop :=
  d.definitions ≠ [] ∧ d.definitions.head? = some d.definition ∧
    (d.models = .arr [] ∨ JVal.jsTruthy d.models = true)

/-- A component document whose `models` field is a truthy non-array
value. -/
def badModelsDoc : JVal :=
  .obj [("definitions", .arr [.obj []]), ("models", .str "bogus")]

def badModelsDir : ComponentDir := [("_x.json", some badModelsDoc)]

/-- The enriched record `getAllFormComponents` pushes per loadable
component (source lines 266–274): display title, id, filename, field
type, resource type and template region, plus the full loaded data (the
source's `...componentData` spread). -/
structure Component where
  name : JVal
  id : JVal
  filename : String
  fieldType : JVal
  resourceType : JVal
  template : JVal
  data : ComponentData

/-- The per-file enrichment step of `getAllFormComponents` (source lines
257–277): skip when the first definition is falsy, dereference the
template region (`definition.plugins?.xwalk?.page?.template` — a
`TypeError` is caught by the source and classified as skipped), and push
only when `definition.title && definition.id` are truthy. -/
def buildComponent (filename : String) (d : ComponentData) :
    Except String (Option Component) := do
  let plugins ← jsMember d.definition "plugins"
  let template := jsOptChain (jsOptChain (jsOptChain plugins "xwalk") "page")
    "template"
  let title ← jsMember d.definition "title"
  let idv ← jsMember d.definition "id"
  if JVal.jsTruthy title && JVal.jsTruthy idv then
    .ok (some
      { name := title
        id := idv
        filename := filename
        fieldType := if JVal.jsTruthy (jsOptChain template "fieldType") then
            jsOptChain template "fieldType"
          else idv
        resourceType := jsOptChain (jsOptChain (jsOptChain plugins "xwalk")
          "page") "resourceType"
        template := if JVal.jsTruthy template then template else .obj []
        data := d })
  else .ok none

/-- The `localeCompare`-based comparator restricted to string titles
(ASCII order; a non-string title makes the source's sort throw, handled
in `sortComponents`). -/
def componentNameLe (a b : Component) : Bool :=
  match a.name, b.name with
  | .str sa, .str sb => sa ≤ sb
  | _, _ => true

/-- Stable insertion into a sorted prefix (equal titles keep their
original relative order), modelling the stable
`Array.prototype.sort`. -/
def insertByName (c : Component) : List Component → List Component
  | [] => [c]
  | d :: ds => if componentNameLe d c then d :: insertByName c ds
               else c :: d :: ds

/-- `components.sort((a, b) => a.name.localeCompare(b.name))` (source
line 286): a stable sort by title; a non-string title raises a
`TypeError` that escapes to the enclosing catch. -/
def sortComponents (l : List Component) : Except String (List Component) :=
  if l.all (fun c => match c.name with | .str _ => true | _ => false) then
    .ok (l.foldl (fun acc c => insertByName c acc) [])
  else .error "Could not read form-components directory: TypeError"

/-- `getAllFormComponents` (source lines 243–291): list the directory's
`_*.json` files in order, load each through the shared cache, classify
failures and missing title/id as skipped, and return the survivors
sorted by title. -/
def getAllFormComponents (cache : Cache) (fs : ComponentDir) :
    Except String (List Component) × Cache :=
  let files := (fs.map Prod.fst).filter
    (fun f => strStartsWith f "_" && strEndsWith f ".json")
  let step := fun (acc : List Component × Cache) (filename : String) =>
    match getComponentDefinition acc.2 fs filename with
    | (.error _, c') => (acc.1, c')
    | (.ok d, c') =>
      if JVal.jsTruthy d.definition then
        match buildComponent filename d with
        | .error _ => (acc.1, c')
        | .ok (some comp) => (acc.1 ++ [comp], c')
        | .ok none => (acc.1, c')
      else (acc.1, c')
  let (comps, cache') := files.foldl step ([], cache)
  (sortComponents comps, cache')

/-!
## CompositeComponentSynthesizer (`generateCompositeJSON`, source lines
512–550)
The composite is built on the catalog's `panel` component: its template
starts from the panel template with display title and view-type
discriminator overridden, then each selected child is assigned under a
key derived from its identifier (underscored, with a 1-based positional
suffix whenever more than one child was selected); the composite's
definition and model are JSON-round-trip clones of the panel's with id
and title overridden and fragment paths rewritten.
-/
/-- A selected child: the component plus its chosen display name
(`{component, customName}`). -/
structure SelComp where
  component : Component
  customName : JVal

/-- `definition.plugins.xwalk.page.template` by plain property accesses
(`TypeError` on a broken path, as in the source). -/
def templatePathOf (definition : JVal) : Except String JVal := do
  let plugins ← jsMember definition "plugins"
  let xwalk ← jsMember plugins "xwalk"
  let page ← jsMember xwalk "page"
  jsMember page "template"

/-- Child key construction (source lines 524–525):
`element.component.id.replace(hyphens, underscores)` plus
`index + 1` when more than one child was selected. -/
def childElementName (total : Nat) (index : Nat) (id : String) : String :=
  String.mk (id.data.map (fun c => if c = '-' then '_' else c)) ++
    (if total > 1 then toString (index + 1) else "")

/-- The `selectedComponents.forEach((element, index) => ...)` loop
(source lines 523–533): assign each child's entry into the template
object; a non-string component id makes `replace` throw. -/
def addCompositeChildren (total : Nat) (t : List (String × JVal))
    (index : Nat) : List SelComp → Except String (List (String × JVal))
  | [] => .ok t
  | el :: rest =>
    match el.component.id with
    | .str idStr =>
      let entry := JVal.jsObjOf
        ([("sling:resourceType", el.component.resourceType),
          ("fieldType", el.component.fieldType)] ++
         JVal.spreadEntries el.component.template ++
         [("jcr:title", if JVal.jsTruthy el.customName then el.customName
                        else el.component.name)])
      addCompositeChildren total
        (JVal.jsInsert t (childElementName total index idStr) (.obj entry))
        (index + 1) rest
    | _ => .error "TypeError"

/-- Template construction of `generateCompositeJSON` (source lines
517–533): panel template spread, display title and view-type override,
then the children in selection order. -/
def buildCompositeTemplate (basePanelDefinition : JVal)
    (componentName : String) (selectedComponents : List SelComp) :
    Except String (List (String × JVal)) := do
  let tplV ← templatePathOf basePanelDefinition
  let t0 := JVal.jsObjOf (JVal.spreadEntries tplV ++
    [("jcr:title", .str (formatComponentName componentName)),
     ("fd:viewType", .str componentName)])
  addCompositeChildren selectedComponents.length t0 0 selectedComponents

mutual

/-- `JSON.parse(JSON.stringify(v))`: `none` when the value is
`undefined` (not serializable); `undefined` entries of objects are
dropped, `undefined` array items become `null`. -/
def jsonClone : JVal → Option JVal
  | .undef => none
  | .obj es => some (.obj (jsonCloneEntries es))
  | .arr l => some (.arr (jsonCloneList l))
  | v => some v
termination_by structural v => v

def jsonCloneList : List JVal → List JVal
  | [] => []
  | v :: vs =>
    (match jsonClone v with
     | some w => w
     | none => JVal.null) :: jsonCloneList vs
termination_by structural l => l

def jsonCloneEntries : List (String × JVal) → List (String × JVal)
  | [] => []
  | (k, v) :: rest =>
    match jsonClone v with
    | some w => (k, w) :: jsonCloneEntries rest
    | none => jsonCloneEntries rest
termination_by structural l => l

end

/-- Definition construction of `generateCompositeJSON` (source lines
536–539): override `title` and `id` on the cloned panel definition and
assign the built template at `plugins.xwalk.page.template` (in strict
mode a non-object along the path raises a `TypeError`). -/
def setCompositeDefinition (cloned : JVal) (componentName : String)
    (template : List (String × JVal)) : Except String JVal :=
  match cloned with
  | .obj es =>
    let es2 := JVal.jsInsert
      (JVal.jsInsert es "title" (.str (formatComponentName componentName)))
      "id" (.str componentName)
    match JVal.jsGet es2 "plugins" with
    | some (.obj pes) =>
      match JVal.jsGet pes "xwalk" with
      | some (.obj xes) =>
        match JVal.jsGet xes "page" with
        | some (.obj pges) =>
          .ok (.obj (JVal.jsInsert es2 "plugins" (.obj (JVal.jsInsert pes
            "xwalk" (.obj (JVal.jsInsert xes "page" (.obj (JVal.jsInsert pges
              "template" (.obj template)))))))))
        | _ => .error "TypeError"
      | _ => .error "TypeError"
    | _ => .error "TypeError"
  | _ => .error "TypeError"

/-- `generateCompositeJSON` after the panel load (source lines 514–549):
build the template, clone and override the panel definition, clone the
panel model with the new id and rewritten fragment paths (a panel
without any model makes `JSON.parse(JSON.stringify(undefined))`
throw). -/
def generateCompositeJSONData (panelData : ComponentData)
    (componentName : String) (selectedComponents : List SelComp) :
    Except String JVal := do
  let template ← buildCompositeTemplate panelData.definition componentName
    selectedComponents
  let clonedDef ←
    match jsonClone panelData.definition with
    | some v => Except.ok v
    | none => Except.error "SyntaxError"
  let compositeDefinition ← setCompositeDefinition clonedDef componentName
    template
  let clonedModel ←
    match panelData.model with
    | some m =>
      match jsonClone m with
      | some v => Except.ok v
      | none => Except.error "SyntaxError"
    | none => Except.error "SyntaxError"
  let compositeModel := transformComponentPaths (.obj (JVal.jsObjOf
    (JVal.spreadEntries clonedModel ++ [("id", .str componentName)])))
  .ok (.obj [("definitions", .arr [compositeDefinition]),
             ("models", .arr [compositeModel])])

/-- `generateCompositeJSON` (source lines 512–550): load `panel` through
the catalog, then build the composite document. -/
def generateCompositeJSON (cache : Cache) (fs : ComponentDir)
    (componentName : String) (selectedComponents : List SelComp) :
    Except String JVal × Cache :=
  match getComponentDefinition cache fs "panel" with
  | (.error e, c') => (.error e, c')
  | (.ok panelData, c') =>
    (generateCompositeJSONData panelData componentName selectedComponents, c')

/-- Template region of a generated document's first definition (claim
side, for stating scenarios). -/
def templateEntriesOf (doc : JVal) : List (String × JVal) :=
  match doc with
  | .obj es =>
    match JVal.jsGet es "definitions" with
    | some (.arr (d :: _)) =>
      match templatePathOf d with
      | .ok (.obj tes) => tes
      | _ => []
    | _ => []
  | _ => []

/-- Key set evolution of a JS property assignment (claim side). -/
def jsKeysAfterInsert (keys : List String) (k : String) : List String :=
  if keys.contains k then keys else keys ++ [k]

/-- The claim's child-key formula, folded over the selection in order:
each child's key is its identifier with separators replaced by
underscores, suffixed by its 1-based selection position exactly when
more than one child was selected. -/
def claimChildKeys (keys0 : List String) (total : Nat) (idx : Nat) :
    List SelComp → List String
  | [] => keys0
  | el :: rest =>
    match el.component.id with
    | .str idStr =>
      claimChildKeys
        (jsKeysAfterInsert keys0
          (String.mk (idStr.data.map (fun c => if c = '-' then '_' else c)) ++
            (if total > 1 then toString (idx + 1) else "")))
        total (idx + 1) rest
    | _ => keys0

/-- A panel base document (shape of `_panel.json`). -/
def panelDocEx : JVal :=
  .obj [
    ("definitions", .arr [.obj [
      ("title", .str "Panel"),
      ("id", .str "panel"),
      ("plugins", .obj [("xwalk", .obj [("page", .obj [
        ("resourceType", .str "core/fd/components/form/panelcontainer/v1/panelcontainer"),
        ("template", .obj [
          ("jcr:title", .str "Panel"),
          ("fieldType", .str "panel")])])])])]]),
    ("models", .arr [.obj [
      ("id", .str "panel"),
      ("fields", .arr [.obj [("...", .str "../form-common/_basic.json")]])]])]

/-- A directory holding only the panel document. -/
def panelDirEx : ComponentDir := [("_panel.json", some panelDocEx)]

/-- Loaded data mirroring a text-input base component. -/
def tiData : ComponentData :=
  { filename := "_text-input.json"
    identifier := "_text-input.json"
    definitions := [.obj [("title", .str "Text Input"), ("id", .str "text-input")]]
    models := .arr []
    definition := .obj [("title", .str "Text Input"), ("id", .str "text-input")]
    model := none }

/-- The text-input component as enumerated by the catalog. -/
def tiComponent : Component :=
  { name := .str "Text Input"
    id := .str "text-input"
    filename := "_text-input.json"
    fieldType := .str "text-input"
    resourceType := .str "core/fd/components/form/textinput/v1/textinput"
    template := .obj [("jcr:title", .str "Text Input")]
    data := tiData }

def tiSel : SelComp := { component := tiComponent, customName := .str "Text Input" }

def emailData : ComponentData :=
  { filename := "_email.json"
    identifier := "_email.json"
    definitions := [.obj [("title", .str "Email"), ("id", .str "email")]]
    models := .arr []
    definition := .obj [("title", .str "Email"), ("id", .str "email")]
    model := none }

def emailComponent : Component :=
  { name := .str "Email"
    id := .str "email"
    filename := "_email.json"
    fieldType := .str "email"
    resourceType := .str "core/fd/components/form/emailinput/v1/emailinput"
    template := .obj [("jcr:title", .str "Email")]
    data := emailData }

def emailSel : SelComp := { component := emailComponent, customName := .str "Email" }

def buttonData : ComponentData :=
  { filename := "_button.json"
    identifier := "_button.json"
    definitions := [.obj [("title", .str "Button"), ("id", .str "button")]]
    models := .arr []
    definition := .obj [("title", .str "Button"), ("id", .str "button")]
    model := none }

def buttonComponent : Component :=
  { name := .str "Button"
    id := .str "button"
    filename := "_button.json"
    fieldType := .str "button"
    resourceType := .str "core/fd/components/form/button/v1/button"
    template := .obj [("jcr:title", .str "Button")]
    data := buttonData }

def buttonSel : SelComp := { component := buttonComponent, customName := .str "Button" }

/-!
## SimpleComponentSynthesizer (the simple branch of
`createComponentFiles`, source lines 608–653)
Each base definition is cloned with `title` / `id` overridden to the
target name and, inside `plugins.xwalk.page.template`, only the display
title and the view-type discriminator overridden; each base model is
cloned with `id` overridden and fragment paths rewritten.
-/
/-- One output definition of the simple synthesis (source lines
624–642): the nested object-literal spread chain.  Plain accesses
`def.plugins`, `def.plugins.xwalk`, `def.plugins.xwalk.page` raise
`TypeError` on a broken path (caught and wrapped by the source). -/
def simpleDefinitionOf (componentName : String) (defv : JVal) :
    Except String JVal :=
  match jsMember defv "plugins" with
  | .error e => .error e
  | .ok plugins =>
  match jsMember plugins "xwalk" with
  | .error e => .error e
  | .ok xwalk =>
  match jsMember xwalk "page" with
  | .error e => .error e
  | .ok page =>
  match jsMember page "template" with
  | .error e => .error e
  | .ok template =>
  .ok (.obj (JVal.jsObjOf (JVal.spreadEntries defv ++
    [("title", .str (formatComponentName componentName)),
     ("id", .str componentName),
     ("plugins", .obj (JVal.jsObjOf (JVal.spreadEntries plugins ++
       [("xwalk", .obj (JVal.jsObjOf (JVal.spreadEntries xwalk ++
         [("page", .obj (JVal.jsObjOf (JVal.spreadEntries page ++
           [("template", .obj (JVal.jsObjOf (JVal.spreadEntries template ++
             [("jcr:title", .str (formatComponentName componentName)),
              ("fd:viewType", .str componentName)])))])))])))])))])))

/-- One output model of the simple synthesis (source lines 643–646):
clone, override `id`, rewrite fragment paths. -/
def simpleModelOf (componentName : String) (model : JVal) : JVal :=
  transformComponentPaths (.obj (JVal.jsObjOf
    (JVal.spreadEntries model ++ [("id", .str componentName)])))

/-- Helper mapping a fallible builder over a definitions list. -/
def mapExcept (f : JVal → Except String JVal) :
    List JVal → Except String (List JVal)
  | [] => .ok []
  | v :: vs => do
    let w ← f v
    let ws ← mapExcept f vs
    .ok (w :: ws)

/-- The simple-mode `customJson` (source lines 623–647): map the
definition builder over all base definitions, the model builder over the
base models (`.map` on a non-array `models` raises a `TypeError`). -/
def createSimpleJson (componentName : String)
    (baseComponentData : ComponentData) : Except String JVal := do
  let defs ← mapExcept (simpleDefinitionOf componentName)
    baseComponentData.definitions
  match baseComponentData.models with
  | .arr models =>
    .ok (.obj [("definitions", .arr defs),
               ("models", .arr (models.map (simpleModelOf componentName)))])
  | _ => .error "TypeError"

/-- `definitions[0].id` of a generated schema document (claim side). -/
def definitionsHeadId (doc : JVal) : Option JVal :=
  match doc with
  | .obj es =>
    match JVal.jsGet es "definitions" with
    | some (.arr (d :: _)) =>
      match d with
      | .obj des => JVal.jsGet des "id"
      | _ => none
    | _ => none
  | _ => none

/-- A radio-group base component (shape of `_radio-group.json`). -/
def radioGroupDefinition : JVal :=
  .obj [("title", .str "Radio Group"), ("id", .str "radio-group"),
    ("plugins", .obj [("xwalk", .obj [("page", .obj [
      ("resourceType", .str "core/fd/components/form/radiobutton/v1/radiobutton"),
      ("template", .obj [("jcr:title", .str "Radio Button"),
        ("fieldType", .str "radio-group")])])])])]

def radioGroupData : ComponentData :=
  { filename := "_radio-group.json"
    identifier := "_radio-group.json"
    definitions := [radioGroupDefinition]
    models := .arr [.obj [("id", .str "radio-group")]]
    definition := radioGroupDefinition
    model := some (.obj [("id", .str "radio-group")]) }

def rgTes : List (String × JVal) :=
  [("jcr:title", .str "Radio Button"), ("fieldType", .str "radio-group")]

def rgPges : List (String × JVal) :=
  [("resourceType", .str "core/fd/components/form/radiobutton/v1/radiobutton"),
   ("template", .obj rgTes)]

def rgXes : List (String × JVal) := [("page", .obj rgPges)]

def rgPes : List (String × JVal) := [("xwalk", .obj rgXes)]

def rgDes : List (String × JVal) :=
  [("title", .str "Radio Group"), ("id", .str "radio-group"),
   ("plugins", .obj rgPes)]

/-!
## ModeDispatcher spec parsing (`parseComponentSpecs`, source lines
463–509)
`args.slice(2)` is split on commas only when it is a single argument
containing a comma; each spec's identifier is the part before the first
colon, the custom name is the remainder re-joined on colons and trimmed
(empty after trimming is a validation error); a spec without a colon
gets the component's own display name.  (The source's not-found message
also lists the available ids; the suffix is display-only and omitted
here.)
-/
/-- `String.prototype.split(sep)` for a one-character separator. -/
def splitOnChar (sep : Char) : List Char → List (List Char)
  | [] => [[]]
  | c :: cs =>
    if c = sep then [] :: splitOnChar sep cs
    else
      match splitOnChar sep cs with
      | g :: gs => (c :: g) :: gs
      | [] => [[c]]

/-- `Array.prototype.join(sep)` for a one-character separator. -/
def joinChar (sep : Char) : List (List Char) → List Char
  | [] => []
  | [x] => x
  | x :: y :: xs => x ++ sep :: joinChar sep (y :: xs)

/-- `allComponents.find(comp => comp.name === componentId || comp.id ===
componentId)`. -/
def findComponentBySpec (comps : List Component) (componentId : String) :
    Option Component :=
  comps.find? (fun c =>
    JVal.jsStrEq c.name componentId || JVal.jsStrEq c.id componentId)

/-- The comma-splitting step (source lines 468–473): split only when
exactly one argument containing a comma was supplied. -/
def componentSpecsOf (specs : List String) : List String :=
  match specs with
  | [s] =>
    if s.data.contains ',' then
      (splitOnChar ',' s.data).map (fun e => String.mk (trimChars e))
    else [s]
  | _ => specs

/-- One spec (source lines 475–506): identifier before the first colon,
custom name the remainder re-joined on colons and trimmed. -/
def parseOneSpec (allComponents : List Component) (spec : String) :
    Except String SelComp :=
  let pr : String × Option String :=
    if spec.data.contains ':' then
      match splitOnChar ':' spec.data with
      | idPart :: nameParts =>
        (String.mk (trimChars idPart),
         some (String.mk (trimChars (joinChar ':' nameParts))))
      | [] => (String.mk (trimChars spec.data), none)
    else (String.mk (trimChars spec.data), none)
  match findComponentBySpec allComponents pr.1 with
  | none => .error ("Component '" ++ pr.1 ++ "' not found.")
  | some component =>
    match pr.2 with
    | some cn =>
      if cn = "" then
        .error ("Custom name cannot be empty for component '" ++ pr.1 ++
          "'. Use 'component:name' or just 'component'.")
      else .ok { component := component, customName := .str cn }
    | none => .ok { component := component, customName := component.name }

/-- The spec loop, failing on the first bad spec. -/
def parseSpecsList (allComponents : List Component) :
    List String → Except String (List SelComp)
  | [] => .ok []
  | s :: ss =>
    match parseOneSpec allComponents s with
    | .error e => .error e
    | .ok x =>
      match parseSpecsList allComponents ss with
      | .error e => .error e
      | .ok xs => .ok (x :: xs)

/-- `parseComponentSpecs` (source lines 463–509). -/
def parseComponentSpecs (args : List String)
    (allComponents : List Component) : Except String (List SelComp) :=
  parseSpecsList allComponents (componentSpecsOf (args.drop 2))

def aComp : Component :=
  { name := .str "A"
    id := .str "a"
    filename := "_a.json"
    fieldType := .str "a"
    resourceType := .undef
    template := .obj []
    data := tiData }

/-!
## ModeDispatcher, programmatic mode (`runProgrammatic`, source lines
982–1042, and `createComponentFiles`, source lines 596–679)
`World` is the filesystem state the tool touches: the form-components
directory, the existing component directories, the component files
created under them (tracked by path — the generated js/css/json stub
contents are not read by any claim), and the two shared configuration
documents.  `update-mappings.js` is imported from a module that is not
part of the studied source; it runs only after the component files were
written successfully and is outside this state model.  The argument
shape was already validated at startup (source lines 20–32).
-/
structure World where
  formComponents : ComponentDir
  componentDirs : List String
  componentFiles : List String
  formJson : String
  componentDef : JVal

/-- The `componentData` record runProgrammatic assembles (source lines
1013 and 1017). -/
inductive ScaffoldData where
  | simple (baseComponent : Component)
  | composite (selectedComponents : List SelComp)

/-- `createComponentFiles` (source lines 596–679) up to the three
`writeFileSync` calls: builds the schema document (the failure paths),
returning the three file names written on success.  The simple branch
reloads the base through the cache by `baseComponent.filename ||
baseComponent.id` (enumerated components always carry a filename); its
`!baseComponentData || !definitions || !models` guard can never fire
since loads always produce a non-empty definitions list and a truthy
models value.  Error messages carry the source's wrap text. -/
def createComponentFiles (cache : Cache) (fs : ComponentDir)
    (componentName : String) (data : ScaffoldData) :
    Except String (List String) × Cache :=
  match data with
  | .simple baseComponent =>
    let identifier :=
      if baseComponent.filename ≠ "" then baseComponent.filename
      else match baseComponent.id with | .str s => s | _ => ""
    match getComponentDefinition cache fs identifier with
    | (.error e, c') =>
      (.error ("Failed to create simple component '" ++ componentName ++
        "': " ++ e), c')
    | (.ok baseComponentData, c') =>
      match createSimpleJson componentName baseComponentData with
      | .error e =>
        (.error ("Failed to create simple component '" ++ componentName ++
          "': " ++ e), c')
      | .ok _ =>
        (.ok [componentName ++ ".js", componentName ++ ".css",
          "_" ++ componentName ++ ".json"], c')
  | .composite selectedComponents =>
    match selectedComponents with
    | [] =>
      (.error ("No components selected for composite component '" ++
        componentName ++ "'"), cache)
    | _ :: _ =>
      match generateCompositeJSON cache fs componentName selectedComponents with
      | (.error e, c') =>
        (.error ("Failed to create composite component '" ++ componentName ++
          "': " ++ e), c')
      | (.ok _, c') =>
        (.ok [componentName ++ ".js", componentName ++ ".css",
          "_" ++ componentName ++ ".json"], c')

/-- Resolution of the component selection (source lines 1003–1018):
the simple base lookup or the composite spec parsing.  The not-found
message for a simple base omits the source's available-ids listing. -/
def resolveScaffoldData (args : List String)
    (allComponents : List Component) : Except String ScaffoldData :=
  if args.getD 0 "" = "--simple" then
    match allComponents.find? (fun comp =>
      JVal.jsStrEq comp.name (args.getD 2 "") ||
      JVal.jsStrEq comp.id (args.getD 2 "")) with
    | none => .error ("Base component '" ++ args.getD 2 "" ++ "' not found.")
    | some baseComponent => .ok (ScaffoldData.simple baseComponent)
  else
    match parseComponentSpecs args allComponents with
    | .error e => .error e
    | .ok sel => .ok (ScaffoldData.composite sel)

/-- `runProgrammatic` (source lines 982–1042): transform and validate
the name, enumerate the catalog, resolve the base component or specs,
re-check the name conflict, create the target directory, create the
component files, then apply the two shared-document patches (whose
failures are warnings, not errors). -/
def runProgrammatic (w : World) (cache : Cache) (args : List String) :
    Except String Unit × World × Cache :=
  match validateComponentName w.componentDirs
      (transformComponentName (args.getD 1 "")) with
  | some msg => (.error msg, w, cache)
  | none =>
    match getAllFormComponents cache w.formComponents with
    | (.error e, c1) => (.error e, w, c1)
    | (.ok allComponents, c1) =>
      match resolveScaffoldData args allComponents with
      | .error e => (.error e, w, c1)
      | .ok data =>
        if w.componentDirs.contains (transformComponentName (args.getD 1 ""))
        then
          (.error ("Component '" ++
            transformComponentName (args.getD 1 "") ++
            "' already exists. Please choose a different name."), w, c1)
        else
          match createComponentFiles c1 w.formComponents
              (transformComponentName (args.getD 1 "")) data with
          | (.error e, c2) =>
            (.error e,
             { w with componentDirs := w.componentDirs ++
                 [transformComponentName (args.getD 1 "")] }, c2)
          | (.ok files, c2) =>
            (.ok (),
             { formComponents := w.formComponents
               componentDirs := w.componentDirs ++
                 [transformComponentName (args.getD 1 "")]
               componentFiles := w.componentFiles ++ files.map
                 (fun f => transformComponentName (args.getD 1 "") ++ "/" ++ f)
               formJson := (updateFormJson w.formJson
                 (transformComponentName (args.getD 1 ""))).1
               componentDef := (updateComponentDefinition w.componentDef
                 (transformComponentName (args.getD 1 ""))).1 }, c2)

/-- A text-input base document (shape of `_text-input.json`). -/
def tiDocEx : JVal :=
  .obj [
    ("definitions", .arr [.obj [
      ("title", .str "Text Input"),
      ("id", .str "text-input"),
      ("plugins", .obj [("xwalk", .obj [("page", .obj [
        ("resourceType", .str "core/fd/components/form/textinput/v1/textinput"),
        ("template", .obj [("jcr:title", .str "Text Input"),
          ("fieldType", .str "text-input")])])])])]]),
    ("models", .arr [.obj [("id", .str "text-input")]])]

/-- A world whose form-components directory holds only the text-input
document — in particular no `_panel.json` — with no existing component
directories or files. -/
def worldNoPanel : World :=
  { formComponents := [("_text-input.json", some tiDocEx)]
    componentDirs := []
    componentFiles := []
    formJson := formDocEx
    componentDef := regDocEx }

/-- Stripping an expected lead off `lead ++ rest` yields `rest`. -/
theorem dropLead_append (lead rest : List Char) :
    dropLead lead (lead ++ rest) = some rest := by
  induction lead with
  | nil => rfl
  | cons c cs ih => simp [dropLead, ih]

/-- A string carrying the shared-fragment lead is rewritten to the deeper
path with the same remainder. -/
theorem rewriteFragmentPath_of_lead (rest : String) :
    rewriteFragmentPath ("../form-common/" ++ rest)
      = "../../models/form-common/" ++ rest := by
  have h : ("../form-common/" ++ rest).data
      = "../form-common/".data ++ rest.data := by
    cases rest; rfl
  simp only [rewriteFragmentPath, h, dropLead_append]
  cases rest
  rfl

/-- A string not carrying the lead is returned unchanged. -/
theorem rewriteFragmentPath_of_no_lead (s : String)
    (h : (dropLead "../form-common/".data s.data).isNone = true) :
    rewriteFragmentPath s = s := by
  simp only [rewriteFragmentPath]
  cases hd : dropLead "../form-common/".data s.data with
  | none => rfl
  | some r => rw [hd] at h; simp [Option.isNone] at h

mutual

/-- Values with no rewritable fragment entry pass through the path
rewriter structurally unchanged. -/
theorem transformComponentPaths_id (v : JVal)
    (h : noFragmentRewrite v = true) : transformComponentPaths v = v := by
  cases v with
  | arr l =>
    exact congrArg JVal.arr (transformComponentPathsList_id l h)
  | obj es =>
    exact congrArg JVal.obj (transformComponentPathsEntries_id es h)
  | str s => rfl
  | num n => rfl
  | bool b => rfl
  | null => rfl
  | undef => rfl
termination_by structural v

theorem transformComponentPathsList_id (l : List JVal)
    (h : noFragmentRewriteList l = true) :
    transformComponentPathsList l = l := by
  cases l with
  | nil => rfl
  | cons v vs =>
    rw [noFragmentRewriteList, Bool.and_eq_true] at h
    rw [transformComponentPathsList,
      transformComponentPaths_id v h.1, transformComponentPathsList_id vs h.2]
termination_by structural l

theorem transformComponentPathsEntries_id (l : List (String × JVal))
    (h : noFragmentRewriteEntries l = true) :
    transformComponentPathsEntries l = l := by
  cases l with
  | nil => rfl
  | cons p rest =>
    obtain ⟨k, v⟩ := p
    cases v with
    | str s =>
      rw [noFragmentRewriteEntries, Bool.and_eq_true] at h
      rw [transformComponentPathsEntries,
        transformComponentPathsEntries_id rest h.2]
      by_cases hk : k = "..."
      · have h1 := h.1
        rw [if_pos hk] at h1
        rw [if_pos hk, rewriteFragmentPath_of_no_lead s h1]
      · rw [if_neg hk]
        rfl
    | num n =>
      simp only [noFragmentRewriteEntries, Bool.and_eq_true, ite_self] at h
      simp only [transformComponentPathsEntries, ite_self,
        transformComponentPaths_id _ h.1,
        transformComponentPathsEntries_id rest h.2]
    | bool b =>
      simp only [noFragmentRewriteEntries, Bool.and_eq_true, ite_self] at h
      simp only [transformComponentPathsEntries, ite_self,
        transformComponentPaths_id _ h.1,
        transformComponentPathsEntries_id rest h.2]
    | null =>
      simp only [noFragmentRewriteEntries, Bool.and_eq_true, ite_self] at h
      simp only [transformComponentPathsEntries, ite_self,
        transformComponentPaths_id _ h.1,
        transformComponentPathsEntries_id rest h.2]
    | undef =>
      simp only [noFragmentRewriteEntries, Bool.and_eq_true, ite_self] at h
      simp only [transformComponentPathsEntries, ite_self,
        transformComponentPaths_id _ h.1,
        transformComponentPathsEntries_id rest h.2]
    | arr l2 =>
      simp only [noFragmentRewriteEntries, Bool.and_eq_true, ite_self] at h
      simp only [transformComponentPathsEntries, ite_self,
        transformComponentPaths_id _ h.1,
        transformComponentPathsEntries_id rest h.2]
    | obj es2 =>
      simp only [noFragmentRewriteEntries, Bool.and_eq_true, ite_self] at h
      simp only [transformComponentPathsEntries, ite_self,
        transformComponentPaths_id _ h.1,
        transformComponentPathsEntries_id rest h.2]
termination_by structural l

end

/-- C5: the path rewriter is total (it is a Lean function on all of `JVal`)
and (1) rewrites every `"..."`-keyed string value carrying the
`../form-common/` lead to the deeper `../../models/form-common/` path,
keeping the remainder of the path; (2) returns any value with no such
entry structurally unchanged; in particular it sends
`{"...": "../form-common/x.json"}` to
`{"...": "../../models/form-common/x.json"}` and returns
`{"...": "../other/x.json"}` equal to the input. -/
theorem transformComponentPaths_spec :
    (∀ rest : String,
      transformComponentPaths (.obj [("...", .str ("../form-common/" ++ rest))])
        = .obj [("...", .str ("../../models/form-common/" ++ rest))]) ∧
    (∀ v : JVal, noFragmentRewrite v = true → transformComponentPaths v = v) ∧
    transformComponentPaths (.obj [("...", .str "../form-common/x.json")])
      = .obj [("...", .str "../../models/form-common/x.json")] ∧
    transformComponentPaths (.obj [("...", .str "../other/x.json")])
      = .obj [("...", .str "../other/x.json")] := by
  refine ⟨?_, transformComponentPaths_id, ?_, ?_⟩
  · intro rest
    simp [transformComponentPaths, transformComponentPathsEntries,
      rewriteFragmentPath_of_lead]
  · rfl
  · rfl

/-- Witness for C5: the hypothesis-bearing conjunct applied at a concrete
value with no rewritable entry. -/
theorem transformComponentPaths_spec_witness :
    noFragmentRewrite (.obj [("a", .arr [.num 3, .obj [("...", .num 7)]])]) = true ∧
    transformComponentPaths (.obj [("a", .arr [.num 3, .obj [("...", .num 7)]])])
      = .obj [("a", .arr [.num 3, .obj [("...", .num 7)]])] :=
  ⟨rfl, transformComponentPaths_spec.2.1 _ rfl⟩

/-- A whitespace character is outside the kept `[a-z0-9-_]` class. -/
theorem ws_not_allowed (c : Char) (h : c.isWhitespace = true) :
    isAllowedChar c = false := by
  have h' : ((c = ' ' ∨ c = '\t') ∨ c = '\r') ∨ c = '\n' := by
    simpa [Char.isWhitespace] using h
  rcases h' with ((rfl | rfl) | rfl) | rfl <;> decide

/-- Allowed characters survive `toLowerCase` unchanged (they are already
outside the upper-case range). -/
theorem toLower_eq_self_of_allowed (c : Char) (h : isAllowedChar c = true) :
    Char.toLower c = c := by
  have h' : (97 ≤ c.toNat ∧ c.toNat ≤ 122) ∨ (48 ≤ c.toNat ∧ c.toNat ≤ 57) ∨
      c = '-' ∨ c = '_' := by
    simpa [isAllowedChar] using h
  rcases h' with ⟨a, b⟩ | ⟨a, b⟩ | rfl | rfl
  · unfold Char.toLower
    rw [if_neg (by omega)]
  · unfold Char.toLower
    rw [if_neg (by omega)]
  · decide
  · decide

theorem dropWhile_eq_self_of_none {p : Char → Bool} {l : List Char}
    (h : ∀ c ∈ l, p c = false) : l.dropWhile p = l := by
  cases l with
  | nil => rfl
  | cons c cs =>
    exact List.dropWhile_cons_of_neg (by simp [h c (by simp)])

theorem head?_dropWhile_not {p : Char → Bool} {l : List Char} {c : Char}
    (h : (l.dropWhile p).head? = some c) : p c = false := by
  induction l with
  | nil => simp [List.dropWhile] at h
  | cons a as ih =>
    rw [List.dropWhile_cons] at h
    by_cases hp : p a = true
    · rw [if_pos hp] at h
      exact ih h
    · rw [if_neg hp] at h
      simp at h
      subst h
      exact Bool.eq_false_iff.mpr hp

theorem squashWsRuns_eq_self {l : List Char}
    (h : ∀ c ∈ l, c.isWhitespace = false) : squashWsRuns l false = l := by
  induction l with
  | nil => rfl
  | cons c cs ih =>
    rw [squashWsRuns, if_neg (by simp [h c (by simp)]),
      ih (fun d hd => h d (by simp [hd]))]

theorem map_toLower_eq_self {l : List Char}
    (h : ∀ c ∈ l, isAllowedChar c = true) : l.map Char.toLower = l := by
  induction l with
  | nil => rfl
  | cons c cs ih =>
    rw [List.map_cons, toLower_eq_self_of_allowed c (h c (by simp)),
      ih (fun d hd => h d (by simp [hd]))]

theorem collapse_eq_self_aux {l : List Char} (h : NoHyphenRun l) :
    collapseHyphenRuns l false = l ∧
      (l.head? ≠ some '-' → collapseHyphenRuns l true = l) := by
  induction l with
  | nil => exact ⟨rfl, fun _ => rfl⟩
  | cons c cs ih =>
    rw [NoHyphenRun, List.chain'_cons'] at h
    obtain ⟨hhd, htl⟩ := h
    have ih' := ih htl
    by_cases hc : c = '-'
    · subst hc
      have hcs : cs.head? ≠ some '-' := by
        intro hh
        exact hhd '-' hh ⟨rfl, rfl⟩
      constructor
      · rw [collapseHyphenRuns, if_pos rfl]
        simp [ih'.2 hcs]
      · intro hcontra
        simp at hcontra
    · refine ⟨?_, fun _ => ?_⟩ <;>
        rw [collapseHyphenRuns, if_neg hc, ih'.1]

theorem mem_collapseHyphenRuns {l : List Char} {b : Bool} {c : Char}
    (h : c ∈ collapseHyphenRuns l b) : c ∈ l ∨ c = '-' := by
  induction l generalizing b with
  | nil => simp [collapseHyphenRuns] at h
  | cons a as ih =>
    rw [collapseHyphenRuns] at h
    by_cases ha : a = '-'
    · rw [if_pos ha] at h
      rcases b with _ | _
      · simp at h
        rcases h with h | h
        · exact Or.inr h
        · rcases ih h with h' | h'
          · exact Or.inl (by simp [h'])
          · exact Or.inr h'
      · simp at h
        rcases ih h with h' | h'
        · exact Or.inl (by simp [h'])
        · exact Or.inr h'
    · rw [if_neg ha] at h
      simp at h
      rcases h with h | h
      · exact Or.inl (by simp [h])
      · rcases ih h with h' | h'
        · exact Or.inl (by simp [h'])
        · exact Or.inr h'

theorem collapse_chain (l : List Char) :
    NoHyphenRun (collapseHyphenRuns l false) ∧
      NoHyphenRun (collapseHyphenRuns l true) ∧
      (collapseHyphenRuns l true).head? ≠ some '-' := by
  induction l with
  | nil => refine ⟨?_, ?_, by simp [collapseHyphenRuns]⟩ <;>
      simp [collapseHyphenRuns, NoHyphenRun]
  | cons c cs ih =>
    obtain ⟨ihf, iht, ihh⟩ := ih
    by_cases hc : c = '-'
    · subst hc
      refine ⟨?_, ?_, ?_⟩
      · rw [collapseHyphenRuns, if_pos rfl]
        show NoHyphenRun ('-' :: collapseHyphenRuns cs true)
        rw [NoHyphenRun, List.chain'_cons']
        refine ⟨?_, iht⟩
        intro y hy h2
        exact ihh (by rw [hy, h2.2])
      · rw [collapseHyphenRuns, if_pos rfl]
        exact iht
      · rw [collapseHyphenRuns, if_pos rfl]
        exact ihh
    · refine ⟨?_, ?_, ?_⟩
      · rw [collapseHyphenRuns, if_neg hc]
        rw [NoHyphenRun, List.chain'_cons']
        exact ⟨fun y _ h2 => hc h2.1, ihf⟩
      · rw [collapseHyphenRuns, if_neg hc]
        rw [NoHyphenRun, List.chain'_cons']
        exact ⟨fun y _ h2 => hc h2.1, ihf⟩
      · rw [collapseHyphenRuns, if_neg hc]
        intro h
        exact hc (Option.some.inj h)

theorem noHyphenRun_dropWhile {p : Char → Bool} {l : List Char}
    (h : NoHyphenRun l) : NoHyphenRun (l.dropWhile p) := by
  induction l with
  | nil => exact h
  | cons c cs ih =>
    rw [List.dropWhile_cons]
    by_cases hp : p c = true
    · rw [if_pos hp]
      exact ih ((List.chain'_cons'.mp h).2)
    · rw [if_neg hp]
      exact h

theorem noHyphenRun_reverse {l : List Char} (h : NoHyphenRun l) :
    NoHyphenRun l.reverse := by
  rw [NoHyphenRun, List.chain'_reverse]
  exact h.imp (fun a b hab h2 => hab ⟨h2.2, h2.1⟩)

theorem strip_inv {l : List Char}
    (hA : ∀ c ∈ l, isAllowedChar c = true) (hR : NoHyphenRun l) :
    producedNameInv (stripEdgeHyphens l) := by
  unfold stripEdgeHyphens producedNameInv
  refine ⟨?_, ?_, ?_, ?_⟩
  · intro c hc
    rw [List.mem_reverse] at hc
    have hc2 := (List.dropWhile_sublist _).mem hc
    rw [List.mem_reverse] at hc2
    exact hA c ((List.dropWhile_sublist _).mem hc2)
  · exact noHyphenRun_reverse (noHyphenRun_dropWhile (noHyphenRun_reverse
      (noHyphenRun_dropWhile hR)))
  · intro hhd
    have hpre : ((l.dropWhile (fun c => c = '-')).reverse.dropWhile
        (fun c => c = '-')).reverse <+: l.dropWhile (fun c => c = '-') := by
      have h1 := List.dropWhile_suffix (l := (l.dropWhile
        (fun c => c = '-')).reverse) (fun c => c = '-')
      have h2 := List.reverse_prefix.mpr h1
      rwa [List.reverse_reverse] at h2
    obtain ⟨t, ht⟩ := hpre
    have hs1 : (l.dropWhile (fun c => c = '-')).head? = some '-' := by
      rw [← ht, List.head?_append, hhd]
      rfl
    have := head?_dropWhile_not hs1
    simp at this
  · rw [List.getLast?_reverse]
    intro hlast
    have := head?_dropWhile_not hlast
    simp at this

theorem strip_eq_self {l : List Char} (h1 : l.head? ≠ some '-')
    (h2 : l.getLast? ≠ some '-') : stripEdgeHyphens l = l := by
  have step : ∀ m : List Char, m.head? ≠ some '-' →
      m.dropWhile (fun c => c = '-') = m := by
    intro m hm
    cases m with
    | nil => rfl
    | cons c cs =>
      refine List.dropWhile_cons_of_neg ?_
      simp only [List.head?_cons, Ne, Option.some.injEq] at hm
      simp [hm]
  rw [stripEdgeHyphens, step l h1, step l.reverse (by
    rw [List.head?_reverse]; exact h2), List.reverse_reverse]

/-- Every output of the character pipeline satisfies the produced-name
invariant. -/
theorem transformNameChars_inv (l : List Char) :
    producedNameInv (transformNameChars l) := by
  have hA : ∀ c ∈ (squashWsRuns ((trimChars l).map Char.toLower) false).filter
      isAllowedChar, isAllowedChar c = true :=
    fun c hc => List.of_mem_filter hc
  have hA2 : ∀ c ∈ collapseHyphenRuns
      ((squashWsRuns ((trimChars l).map Char.toLower) false).filter
        isAllowedChar) false, isAllowedChar c = true := by
    intro c hc
    rcases mem_collapseHyphenRuns hc with h | rfl
    · exact hA c h
    · decide
  exact strip_inv hA2 (collapse_chain _).1

/-- Lists satisfying the produced-name invariant are fixed points of the
character pipeline. -/
theorem transformNameChars_fixed {l : List Char} (h : producedNameInv l) :
    transformNameChars l = l := by
  obtain ⟨hA, hR, hh, hl⟩ := h
  have hnw : ∀ c ∈ l, c.isWhitespace = false := by
    intro c hc
    cases hw : c.isWhitespace
    · rfl
    · exact absurd (hA c hc) (by simp [ws_not_allowed c hw])
  have htrim : trimChars l = l := by
    rw [trimChars, dropWhile_eq_self_of_none hnw,
      dropWhile_eq_self_of_none (by
        intro c hc
        rw [List.mem_reverse] at hc
        exact hnw c hc), List.reverse_reverse]
  rw [transformNameChars, htrim, map_toLower_eq_self hA,
    squashWsRuns_eq_self hnw, List.filter_eq_self.mpr hA,
    (collapse_eq_self_aux hR).1, strip_eq_self hh hl]

/-- C3 (amended): `transformComponentName` is total (a Lean function on
all strings) and idempotent, and every produced name uses only the
characters `[a-z0-9_-]`, has no run of consecutive hyphens, and neither
starts nor ends with a hyphen.  (The original claim's stronger pattern
`[a-z][a-z0-9_-]*` fails: the transform does not force a leading
letter — that rule is enforced separately by `validateComponentName`;
see the counterexample.) -/
theorem transformComponentName_idempotent_inv :
    (∀ x : String,
      transformComponentName (transformComponentName x)
        = transformComponentName x) ∧
    (∀ x : String, producedNameInv (transformComponentName x).data) := by
  constructor
  · intro x
    show String.mk (transformNameChars (transformNameChars x.data))
      = String.mk (transformNameChars x.data)
    rw [transformNameChars_fixed (transformNameChars_inv x.data)]
  · intro x
    exact transformNameChars_inv x.data

/-- C3 (counterexample): the transform of `"9"` is `"9"`, which does not
match the claimed pattern `[a-z][a-z0-9_-]*` (it does not start with a
letter), so not every produced name matches the claimed regular
expression. -/
theorem transformComponentName_regex_cex :
    transformComponentName "9" = "9" ∧
    matchesSpecNameRegex (transformComponentName "9") = false := by
  refine ⟨by decide, by decide⟩

theorem dropLead_sound : ∀ {lit s r : List Char},
    dropLead lit s = some r → s = lit ++ r := by
  intro lit
  induction lit with
  | nil =>
    intro s r h
    rw [dropLead] at h
    simpa using h
  | cons p ps ih =>
    intro s r h
    cases s with
    | nil => simp [dropLead] at h
    | cons c cs =>
      rw [dropLead] at h
      by_cases hc : c = p
      · rw [if_pos hc] at h
        simp [hc, ih h]
      · rw [if_neg hc] at h
        simp at h

theorem matchFiltersAt_sound {s cap post : List Char}
    (h : matchFiltersAt s = some (cap, post)) :
    ∃ frame, s = frame ++ cap ++ ']' :: post := by
  rw [matchFiltersAt] at h
  cases h1 : dropLead "\"filters\":".data s with
  | none => simp only [h1] at h; exact absurd h (by simp)
  | some r1 =>
  simp only [h1] at h
  cases h2 : dropLead "[".data (r1.dropWhile Char.isWhitespace) with
  | none => simp only [h2] at h; exact absurd h (by simp)
  | some r3 =>
  simp only [h2] at h
  cases h3 : dropLead "\x7b".data (r3.dropWhile Char.isWhitespace) with
  | none => simp only [h3] at h; exact absurd h (by simp)
  | some r5 =>
  simp only [h3] at h
  cases h4 : dropLead "\"id\":".data (r5.dropWhile Char.isWhitespace) with
  | none => simp only [h4] at h; exact absurd h (by simp)
  | some r7 =>
  simp only [h4] at h
  cases h5 : dropLead "\"form\",".data (r7.dropWhile Char.isWhitespace) with
  | none => simp only [h5] at h; exact absurd h (by simp)
  | some r9 =>
  simp only [h5] at h
  cases h6 : dropLead "\"components\":".data (r9.dropWhile Char.isWhitespace) with
  | none => simp only [h6] at h; exact absurd h (by simp)
  | some r11 =>
  simp only [h6] at h
  cases h7 : dropLead "[".data (r11.dropWhile Char.isWhitespace) with
  | none => simp only [h7] at h; exact absurd h (by simp)
  | some r13 =>
  simp only [h7] at h
  cases h8 : r13.dropWhile (fun c => ¬ c = ']') with
  | nil => simp only [h8] at h; exact absurd h (by simp)
  | cons c13 post' =>
  simp only [h8] at h
  split at h
  case h_2 => exact absurd h (by simp)
  case h_1 post2 heq =>
    injection heq with heq1 heq2
    subst heq1
    subst heq2
    simp only [Option.some.injEq, Prod.mk.injEq] at h
    obtain ⟨hcap, hpost⟩ := h
    subst hcap
    subst hpost
    refine ⟨"\"filters\":".data ++ (r1.takeWhile Char.isWhitespace) ++
      "[".data ++ (r3.takeWhile Char.isWhitespace) ++
      "\x7b".data ++ (r5.takeWhile Char.isWhitespace) ++
      "\"id\":".data ++ (r7.takeWhile Char.isWhitespace) ++
      "\"form\",".data ++ (r9.takeWhile Char.isWhitespace) ++
      "\"components\":".data ++ (r11.takeWhile Char.isWhitespace) ++
      "[".data, ?_⟩
    have e8 : r13 = r13.takeWhile (fun c => ¬ c = ']') ++ ']' :: post' := by
      conv_lhs => rw [← List.takeWhile_append_dropWhile (fun c => ¬ c = ']') r13]
      rw [h8]
    calc s = "\"filters\":".data ++ r1 := dropLead_sound h1
      _ = "\"filters\":".data ++
          (r1.takeWhile Char.isWhitespace ++ r1.dropWhile Char.isWhitespace) := by
            rw [List.takeWhile_append_dropWhile]
      _ = "\"filters\":".data ++
          (r1.takeWhile Char.isWhitespace ++ ("[".data ++ r3)) := by
            rw [dropLead_sound h2]
      _ = "\"filters\":".data ++ (r1.takeWhile Char.isWhitespace ++ ("[".data ++
          (r3.takeWhile Char.isWhitespace ++ r3.dropWhile Char.isWhitespace))) := by
            rw [List.takeWhile_append_dropWhile]
      _ = "\"filters\":".data ++ (r1.takeWhile Char.isWhitespace ++ ("[".data ++
          (r3.takeWhile Char.isWhitespace ++ ("\x7b".data ++ r5)))) := by
            rw [dropLead_sound h3]
      _ = "\"filters\":".data ++ (r1.takeWhile Char.isWhitespace ++ ("[".data ++
          (r3.takeWhile Char.isWhitespace ++ ("\x7b".data ++
          (r5.takeWhile Char.isWhitespace ++ r5.dropWhile Char.isWhitespace))))) := by
            rw [List.takeWhile_append_dropWhile]
      _ = "\"filters\":".data ++ (r1.takeWhile Char.isWhitespace ++ ("[".data ++
          (r3.takeWhile Char.isWhitespace ++ ("\x7b".data ++
          (r5.takeWhile Char.isWhitespace ++ ("\"id\":".data ++ r7)))))) := by
            rw [dropLead_sound h4]
      _ = "\"filters\":".data ++ (r1.takeWhile Char.isWhitespace ++ ("[".data ++
          (r3.takeWhile Char.isWhitespace ++ ("\x7b".data ++
          (r5.takeWhile Char.isWhitespace ++ ("\"id\":".data ++
          (r7.takeWhile Char.isWhitespace ++ r7.dropWhile Char.isWhitespace))))))) := by
            rw [List.takeWhile_append_dropWhile]
      _ = "\"filters\":".data ++ (r1.takeWhile Char.isWhitespace ++ ("[".data ++
          (r3.takeWhile Char.isWhitespace ++ ("\x7b".data ++
          (r5.takeWhile Char.isWhitespace ++ ("\"id\":".data ++
          (r7.takeWhile Char.isWhitespace ++ ("\"form\",".data ++ r9)))))))) := by
            rw [dropLead_sound h5]
      _ = "\"filters\":".data ++ (r1.takeWhile Char.isWhitespace ++ ("[".data ++
          (r3.takeWhile Char.isWhitespace ++ ("\x7b".data ++
          (r5.takeWhile Char.isWhitespace ++ ("\"id\":".data ++
          (r7.takeWhile Char.isWhitespace ++ ("\"form\",".data ++
          (r9.takeWhile Char.isWhitespace ++ r9.dropWhile Char.isWhitespace))))))))) := by
            rw [List.takeWhile_append_dropWhile]
      _ = "\"filters\":".data ++ (r1.takeWhile Char.isWhitespace ++ ("[".data ++
          (r3.takeWhile Char.isWhitespace ++ ("\x7b".data ++
          (r5.takeWhile Char.isWhitespace ++ ("\"id\":".data ++
          (r7.takeWhile Char.isWhitespace ++ ("\"form\",".data ++
          (r9.takeWhile Char.isWhitespace ++ ("\"components\":".data ++ r11)))))))))) := by
            rw [dropLead_sound h6]
      _ = "\"filters\":".data ++ (r1.takeWhile Char.isWhitespace ++ ("[".data ++
          (r3.takeWhile Char.isWhitespace ++ ("\x7b".data ++
          (r5.takeWhile Char.isWhitespace ++ ("\"id\":".data ++
          (r7.takeWhile Char.isWhitespace ++ ("\"form\",".data ++
          (r9.takeWhile Char.isWhitespace ++ ("\"components\":".data ++
          (r11.takeWhile Char.isWhitespace ++ r11.dropWhile Char.isWhitespace))))))))))) := by
            rw [List.takeWhile_append_dropWhile]
      _ = "\"filters\":".data ++ (r1.takeWhile Char.isWhitespace ++ ("[".data ++
          (r3.takeWhile Char.isWhitespace ++ ("\x7b".data ++
          (r5.takeWhile Char.isWhitespace ++ ("\"id\":".data ++
          (r7.takeWhile Char.isWhitespace ++ ("\"form\",".data ++
          (r9.takeWhile Char.isWhitespace ++ ("\"components\":".data ++
          (r11.takeWhile Char.isWhitespace ++ ("[".data ++ r13)))))))))))) := by
            rw [dropLead_sound h7]
      _ = "\"filters\":".data ++ (r1.takeWhile Char.isWhitespace ++ ("[".data ++
          (r3.takeWhile Char.isWhitespace ++ ("\x7b".data ++
          (r5.takeWhile Char.isWhitespace ++ ("\"id\":".data ++
          (r7.takeWhile Char.isWhitespace ++ ("\"form\",".data ++
          (r9.takeWhile Char.isWhitespace ++ ("\"components\":".data ++
          (r11.takeWhile Char.isWhitespace ++ ("[".data ++
          (r13.takeWhile (fun c => ¬ c = ']') ++ ']' :: post'))))))))))))) := by
            rw [← e8]
      _ = _ := by simp [List.append_assoc]

theorem findFilters_sound : ∀ {s pre cap post : List Char},
    findFilters s = some (pre, cap, post) →
    ∃ frame, s = pre ++ frame ++ cap ++ ']' :: post := by
  intro s
  induction s with
  | nil =>
    intro pre cap post h
    rw [findFilters] at h
    have : matchFiltersAt [] = none := rfl
    rw [this] at h
    exact absurd h (by simp)
  | cons c cs ih =>
    intro pre cap post h
    rw [findFilters] at h
    cases hm : matchFiltersAt (c :: cs) with
    | some r =>
      obtain ⟨cap', post'⟩ := r
      rw [hm] at h
      simp only [Option.some.injEq, Prod.mk.injEq] at h
      obtain ⟨hpre, hcap, hpost⟩ := h
      subst hpre; subst hcap; subst hpost
      obtain ⟨frame, hframe⟩ := matchFiltersAt_sound hm
      exact ⟨frame, by simpa using hframe⟩
    | none =>
      rw [hm] at h
      cases hf : findFilters cs with
      | none => rw [hf] at h; exact absurd h (by simp)
      | some r =>
        obtain ⟨pre', cap', post'⟩ := r
        rw [hf] at h
        simp only [Option.some.injEq, Prod.mk.injEq] at h
        obtain ⟨hpre, hcap, hpost⟩ := h
        subst hcap; subst hpost
        obtain ⟨frame, hframe⟩ := ih hf
        exact ⟨frame, by rw [← hpre]; simp [hframe]⟩

/-- Dropping everything up to a known tail of an append yields the
tail. -/
theorem dropTailEq (l t : List Char) :
    (l ++ t).drop ((l ++ t).length - t.length) = t := by
  have hlen : (l ++ t).length - t.length = l.length := by simp
  rw [hlen, List.drop_left]

/-- C6: both ConfigPatcher operations are idempotent no-ops on an
already-registered name: when the target name parses out of the captured
filter list, `updateFormJson` reports success and returns the document
text unchanged (the source returns before any write); and when an entry
with the exact include path exists in the `custom-components` group,
`updateComponentDefinition` reports success and returns the registry
document unchanged (no write at all). -/
theorem configPatcher_idempotent :
    (∀ (content name : String) pre cap post,
      findFilters content.data = some (pre, cap, post) →
      (parsedComponents cap).contains name.data = true →
      updateFormJson content name = (content, true)) ∧
    (∀ (doc : JVal) (name : String) docEntries groups ges comps,
      doc = JVal.obj docEntries →
      JVal.jsGet docEntries "groups" = some (.arr groups) →
      findCustomGroup groups = .ok (some ges) →
      JVal.jsGet ges "components" = some (.arr comps) →
      findEntryWithPath comps (componentEntryPath name) = .ok true →
      updateComponentDefinition doc name = (doc, true)) := by
  constructor
  · intro content name pre cap post hf hc
    rw [updateFormJson]
    simp only [hf, hc, if_true]
  · intro doc name docEntries groups ges comps hdoc hg hfg hcomp hfe
    subst hdoc
    rw [updateComponentDefinition]
    simp only [hg, hfg, hcomp, hfe]

/-- Witness for C6: both operations applied to concrete already-patched
documents. -/
theorem configPatcher_idempotent_witness :
    updateFormJson formDocEx "a" = (formDocEx, true) ∧
    updateComponentDefinition regDocEx "a" = (regDocEx, true) :=
  ⟨configPatcher_idempotent.1 formDocEx "a" [] formDocExCap formDocExPost
      (by decide) (by decide),
   configPatcher_idempotent.2 regDocEx "a"
      [("groups", .arr [
        .obj [("id", .str "custom-components"),
              ("components",
                .arr [.obj [("...", .str (componentEntryPath "a"))]])]])]
      [.obj [("id", .str "custom-components"),
             ("components",
               .arr [.obj [("...", .str (componentEntryPath "a"))]])]]
      [("id", .str "custom-components"),
       ("components", .arr [.obj [("...", .str (componentEntryPath "a"))]])]
      [.obj [("...", .str (componentEntryPath "a"))]]
      rfl rfl (by rw [findCustomGroup]; simp [JVal.jsGet, JVal.jsStrEq]) rfl
      (by rw [findEntryWithPath]; simp [JVal.jsGet, JVal.jsStrEq])⟩

/-- C7 (amended): when the pattern matches and the name is absent, the
patch succeeds and replaces exactly the *entire matched span* — the
framing plus the captured list body — by the re-emitted section; every
byte before the match and every byte after the match is unchanged.  (The
original claim — that only the *captured* span changes and the
surrounding framing plus existing entries keep their original bytes — is
refuted by the counterexample below: the framing and entries are
re-emitted at fixed indentation.) -/
theorem updateFormJson_frame (content name : String)
    (pre cap post : List Char)
    (hf : findFilters content.data = some (pre, cap, post))
    (habs : (parsedComponents cap).contains name.data = false) :
    ∃ frame,
      content.data = pre ++ frame ++ cap ++ ']' :: post ∧
      (updateFormJson content name).2 = true ∧
      (updateFormJson content name).1.data
        = pre ++ newFiltersSectionChars
            (parsedComponents cap ++ [name.data]) ++ post ∧
      (updateFormJson content name).1.data.take pre.length
        = content.data.take pre.length ∧
      (updateFormJson content name).1.data.drop
          ((updateFormJson content name).1.data.length - post.length)
        = content.data.drop (content.data.length - post.length) := by
  obtain ⟨frame, hframe⟩ := findFilters_sound hf
  have hout : (updateFormJson content name).1.data
      = pre ++ newFiltersSectionChars
          (parsedComponents cap ++ [name.data]) ++ post := by
    rw [updateFormJson]
    simp only [hf, habs]
    rfl
  have hsucc : (updateFormJson content name).2 = true := by
    rw [updateFormJson]
    simp only [hf, habs]
    rfl
  refine ⟨frame, hframe, hsucc, hout, ?_, ?_⟩
  · rw [hout, hframe, List.append_assoc, List.take_left,
      List.append_assoc, List.append_assoc, List.take_left]
  · rw [hout, hframe]
    have hsplit : pre ++ frame ++ cap ++ ']' :: post
        = pre ++ frame ++ cap ++ [']'] ++ post := by simp
    rw [hsplit,
      dropTailEq (pre ++ newFiltersSectionChars
        (parsedComponents cap ++ [name.data])) post,
      dropTailEq (pre ++ frame ++ cap ++ [']']) post]

/-- Witness for C7 (amended): the frame property at a concrete canonical
document with `a` registered, adding `b`. -/
theorem updateFormJson_frame_witness :
    ∃ frame,
      formDocEx.data = [] ++ frame ++ formDocExCap ++ ']' :: formDocExPost ∧
      (updateFormJson formDocEx "b").2 = true ∧
      (updateFormJson formDocEx "b").1.data
        = [] ++ newFiltersSectionChars
            (parsedComponents formDocExCap ++ ["b".data]) ++ formDocExPost ∧
      (updateFormJson formDocEx "b").1.data.take ([] : List Char).length
        = formDocEx.data.take ([] : List Char).length ∧
      (updateFormJson formDocEx "b").1.data.drop
          ((updateFormJson formDocEx "b").1.data.length - formDocExPost.length)
        = formDocEx.data.drop (formDocEx.data.length - formDocExPost.length) :=
  updateFormJson_frame formDocEx "b" [] formDocExCap formDocExPost
    (by decide) (by decide)

/-- C7 (counterexample): on a document whose pattern match succeeds but
whose framing is not in the re-emitted fixed format, the patch changes
bytes *outside* the captured span: the captured span of
`formDocOneLine` starts at offset 43, the name `b` is absent, the patch
succeeds, and the first 43 bytes (all outside the captured span) are not
preserved — refuting "every byte of the document outside that captured
span is identical before and after the patch". -/
theorem updateFormJson_captured_span_cex :
    findFilters formDocOneLine.data
      = some ([], "\"a\"".data, "\x7d]".data) ∧
    (parsedComponents "\"a\"".data).contains "b".data = false ∧
    (updateFormJson formDocOneLine "b").2 = true ∧
    formDocOneLine.data.length - "\"a\"".data.length - "\x7d]".data.length - 1
      = 43 ∧
    ¬ ((updateFormJson formDocOneLine "b").1.data.take 43
        = formDocOneLine.data.take 43) := by
  refine ⟨by decide, by decide, by decide, by decide, by decide⟩

/-- Every record a successful load builds satisfies the cache-entry
invariant. -/
theorem loadComponentFile_inv (fs : ComponentDir) (id : String)
    (d : ComponentData) (h : loadComponentFile fs id = .ok d) :
    cacheEntryInvariant d := by
  rw [loadComponentFile] at h
  cases hlf : lookupFile fs (deriveFilename id) with
  | none => simp only [hlf] at h; simp at h
  | some od =>
    simp only [hlf] at h
    cases od with
    | none => simp at h
    | some doc =>
      cases doc with
      | obj docEntries =>
        cases hdefs : JVal.jsGet docEntries "definitions" with
        | none => simp only [hdefs] at h; simp at h
        | some dv =>
          simp only [hdefs] at h
          cases dv with
          | arr defs =>
            cases defs with
            | nil => simp at h
            | cons dd ds =>
              simp only [Except.ok.injEq] at h
              subst h
              refine ⟨by simp, rfl, ?_⟩
              by_cases ht : JVal.jsTruthy
                  (match JVal.jsGet docEntries "models" with
                   | some v => v
                   | none => JVal.undef) = true
              · right
                simp [ht]

              · left
                simp only [Bool.not_eq_true] at ht
                simp [ht]
          | str s => simp at h
          | num n => simp at h
          | bool b => simp at h
          | null => simp at h
          | undef => simp at h
          | obj es => simp at h
      | str s => simp at h
      | num n => simp at h
      | bool b => simp at h
      | null => simp at h
      | undef => simp at h
      | arr l => simp at h

/-- C10 (amended): only successful loads are inserted into the component
cache — a failing load (missing file, parse failure, missing or empty
definitions) returns the cache untouched, and a later load of the same
identifier behaves as a fresh read of the directory; every entry ever
inserted has a non-empty `definitions` list whose first element is the
`definition` field, and a `models` value that is either the empty-array
default or the document's truthy `models` value.  (The original claim's
"a models array (possibly empty)" is refuted by the counterexample: a
truthy non-array `models` value is cached as-is.) -/
theorem getComponentDefinition_cache_spec :
    (∀ cache fs id e,
      (getComponentDefinition cache fs id).1 = .error e →
      (getComponentDefinition cache fs id).2 = cache) ∧
    (∀ (cache : Cache) fs id,
      (∀ p ∈ cache, cacheEntryInvariant p.2) →
      ∀ p ∈ (getComponentDefinition cache fs id).2, cacheEntryInvariant p.2) ∧
    (∀ (cache : Cache) fs id,
      cache.find? (fun p => p.1 = id) = none →
      (getComponentDefinition cache fs id).1
        = (getComponentDefinition [] fs id).1) := by
  refine ⟨?_, ?_, ?_⟩
  · intro cache fs id e h
    rw [getComponentDefinition] at h ⊢
    cases hfind : cache.find? (fun p => p.1 = id) with
    | some p => simp only [hfind] at h; exact absurd h (by simp)
    | none =>
      simp only [hfind] at h ⊢
      cases hload : loadComponentFile fs id with
      | ok d => simp only [hload] at h; exact absurd h (by simp)
      | error e' => simp only [hload]
  · intro cache fs id hinv p hp
    rw [getComponentDefinition] at hp
    cases hfind : cache.find? (fun q => q.1 = id) with
    | some q =>
      simp only [hfind] at hp
      exact hinv p hp
    | none =>
      simp only [hfind] at hp
      cases hload : loadComponentFile fs id with
      | ok d =>
        simp only [hload] at hp
        rcases List.mem_append.mp hp with hmem | hmem
        · exact hinv p hmem
        · have : p = (id, d) := by simpa using hmem
          rw [this]
          exact loadComponentFile_inv fs id d hload
      | error e' =>
        simp only [hload] at hp
        exact hinv p hp
  · intro cache fs id hfind
    rw [getComponentDefinition, getComponentDefinition]
    simp only [hfind, List.find?_nil]
    cases hload : loadComponentFile fs id with
    | ok d => rfl
    | error e' => rfl

/-- C10 (counterexample): loading a document whose `models` field is the
truthy non-array value `"bogus"` succeeds and caches a record whose
`models` is not an array, refuting "every cached entry has a models
array". -/
theorem getComponentDefinition_models_cex :
    ∃ d, (getComponentDefinition [] badModelsDir "x").1 = .ok d ∧
      (getComponentDefinition [] badModelsDir "x").2 = [("x", d)] ∧
      d.models = .str "bogus" ∧ JVal.isArr d.models = false := by
  refine ⟨_, rfl, rfl, rfl, rfl⟩

/-- Witness for C10 (amended): a failing load (missing `_missing.json`)
leaves a concrete non-empty cache untouched, the invariant holds for the
resulting cache, and an uncached identifier is re-read. -/
theorem getComponentDefinition_cache_spec_witness :
    (getComponentDefinition [] badModelsDir "missing").2 = [] ∧
    (∀ p ∈ (getComponentDefinition [] badModelsDir "x").2,
      cacheEntryInvariant p.2) ∧
    (getComponentDefinition [] badModelsDir "x").1
      = (getComponentDefinition [] badModelsDir "x").1 :=
  ⟨getComponentDefinition_cache_spec.1 [] badModelsDir "missing"
      ("Component definition not found: _missing.json") rfl,
   getComponentDefinition_cache_spec.2.1 [] badModelsDir "x"
      (fun p hp => absurd hp (by simp)),
   getComponentDefinition_cache_spec.2.2 [] badModelsDir "x" rfl⟩

/-- Keys of a JS property assignment: existing key keeps the key list,
a fresh key is appended. -/
theorem keysOf_jsInsert (es : List (String × JVal)) (k : String) (v : JVal) :
    JVal.keysOf (JVal.jsInsert es k v)
      = jsKeysAfterInsert (JVal.keysOf es) k := by
  rw [JVal.jsInsert, jsKeysAfterInsert, JVal.keysOf]
  by_cases h : (JVal.keysOf es).contains k
  · rw [if_pos h, if_pos h]
    rw [List.map_map]
    refine List.map_congr_left ?_
    intro p _
    by_cases hp : p.1 = k
    · simp [hp]
    · simp [hp]
  · rw [if_neg h, if_neg h]
    simp [JVal.keysOf]

/-- The child-assignment loop produces exactly the claim's keys: each
child inserted under its underscored identifier with the conditional
1-based positional suffix, in selection order. -/
theorem addCompositeChildren_keys :
    ∀ (sel : List SelComp) (total : Nat) (t0 : List (String × JVal))
      (idx : Nat) (t : List (String × JVal)),
      addCompositeChildren total t0 idx sel = .ok t →
      JVal.keysOf t = claimChildKeys (JVal.keysOf t0) total idx sel := by
  intro sel
  induction sel with
  | nil =>
    intro total t0 idx t h
    rw [addCompositeChildren] at h
    simp only [Except.ok.injEq] at h
    subst h
    rfl
  | cons el rest ih =>
    intro total t0 idx t h
    cases hid : el.component.id with
    | str idStr =>
      rw [addCompositeChildren] at h
      simp only [hid] at h
      rw [claimChildKeys]
      simp only [hid]
      have := ih total
        (JVal.jsInsert t0 (childElementName total idx idStr)
          (.obj (JVal.jsObjOf
            ([("sling:resourceType", el.component.resourceType),
              ("fieldType", el.component.fieldType)] ++
             JVal.spreadEntries el.component.template ++
             [("jcr:title", if JVal.jsTruthy el.customName then el.customName
                            else el.component.name)]))))
        (idx + 1) t h
      rw [this, keysOf_jsInsert]
      rfl
    | num n => rw [addCompositeChildren] at h; simp only [hid] at h; simp at h
    | bool b => rw [addCompositeChildren] at h; simp only [hid] at h; simp at h
    | null => rw [addCompositeChildren] at h; simp only [hid] at h; simp at h
    | undef => rw [addCompositeChildren] at h; simp only [hid] at h; simp at h
    | arr l => rw [addCompositeChildren] at h; simp only [hid] at h; simp at h
    | obj es => rw [addCompositeChildren] at h; simp only [hid] at h; simp at h

/-- C1: in composite synthesis the template key of every selected child
is its identifier with separator characters replaced by underscores,
unsuffixed when exactly one child is selected and carrying its 1-based
selection position whenever more than one child is selected (general
key characterization of the child loop), and the scenarios: "survey"
from [text-input, text-input] yields keys `text_input1`, `text_input2`
in selection order after the panel-template keys, while a single-child
composite keeps the unsuffixed key `text_input`. -/
theorem generateCompositeJSON_child_keys :
    (∀ (sel : List SelComp) (total : Nat) (t0 : List (String × JVal))
        (idx : Nat) (t : List (String × JVal)),
      addCompositeChildren total t0 idx sel = .ok t →
      JVal.keysOf t = claimChildKeys (JVal.keysOf t0) total idx sel) ∧
    (∃ doc,
      (generateCompositeJSON [] panelDirEx "survey" [tiSel, tiSel]).1
        = .ok doc ∧
      JVal.keysOf (templateEntriesOf doc)
        = ["jcr:title", "fieldType", "fd:viewType",
           "text_input1", "text_input2"]) ∧
    (∃ doc,
      (generateCompositeJSON [] panelDirEx "card" [tiSel]).1 = .ok doc ∧
      JVal.keysOf (templateEntriesOf doc)
        = ["jcr:title", "fieldType", "fd:viewType", "text_input"]) := by
  refine ⟨addCompositeChildren_keys, ⟨_, rfl, rfl⟩, ⟨_, rfl, rfl⟩⟩

/-- Witness for C1: the general key characterization applied to the
concrete two-text-input selection. -/
theorem generateCompositeJSON_child_keys_witness :
    ∃ t, addCompositeChildren 2 [] 0 [tiSel, tiSel] = .ok t ∧
      JVal.keysOf t = claimChildKeys (JVal.keysOf []) 2 0 [tiSel, tiSel] :=
  ⟨_, rfl, generateCompositeJSON_child_keys.1 [tiSel, tiSel] 2 [] 0 _ rfl⟩

/-- C2 (counterexample): synthesizing "contact-form" from the three
distinct children text-input, email, button yields suffixed child keys
`text_input1`, `email2`, `button3` — the unsuffixed keys `text_input`,
`email`, `button` do not occur, refuting the claim that distinct
children keep unsuffixed keys. -/
theorem compositeDistinctChildren_cex :
    ∃ doc,
      (generateCompositeJSON [] panelDirEx "contact-form"
        [tiSel, emailSel, buttonSel]).1 = .ok doc ∧
      JVal.keysOf (templateEntriesOf doc)
        = ["jcr:title", "fieldType", "fd:viewType",
           "text_input1", "email2", "button3"] ∧
      ¬ ("text_input" ∈ JVal.keysOf (templateEntriesOf doc)) ∧
      ¬ ("email" ∈ JVal.keysOf (templateEntriesOf doc)) ∧
      ¬ ("button" ∈ JVal.keysOf (templateEntriesOf doc)) := by
  refine ⟨_, rfl, rfl, by decide, by decide, by decide⟩

/-- C2 (amended): synthesizing a composite from the three distinct
children text-input, email, button produces child keys `text_input1`,
`email2`, `button3` — each carrying its 1-based positional suffix, since
suffixes are applied whenever more than one child is selected, even for
distinct children. -/
theorem compositeDistinctChildren_suffixed :
    ∃ doc,
      (generateCompositeJSON [] panelDirEx "contact-form"
        [tiSel, emailSel, buttonSel]).1 = .ok doc ∧
      JVal.keysOf (templateEntriesOf doc)
        = ["jcr:title", "fieldType", "fd:viewType",
           "text_input1", "email2", "button3"] :=
  ⟨_, rfl, rfl⟩

theorem find_repl_mem {es : List (String × JVal)} {k : String} {v : JVal}
    (h : k ∈ es.map Prod.fst) :
    (es.map (fun p => if p.1 = k then (k, v) else p)).find?
      (fun p => p.1 = k) = some (k, v) := by
  induction es with
  | nil => simp at h
  | cons p es ih =>
    rw [List.map_cons]
    by_cases hp : p.1 = k
    · rw [if_pos hp, List.find?_cons_of_pos _ (by simp)]
    · rw [if_neg hp, List.find?_cons_of_neg _ (by simp [hp])]
      apply ih
      rw [List.map_cons, List.mem_cons] at h
      rcases h with h | h
      · exact absurd h.symm hp
      · exact h

theorem find_repl_other {es : List (String × JVal)} {k k' : String}
    {v : JVal} (hne : k' ≠ k) :
    (es.map (fun p => if p.1 = k then (k, v) else p)).find?
      (fun p => p.1 = k') = es.find? (fun p => p.1 = k') := by
  induction es with
  | nil => rfl
  | cons p es ih =>
    rw [List.map_cons]
    by_cases hp : p.1 = k
    · rw [if_pos hp,
        List.find?_cons_of_neg _ (by
          simp only [decide_eq_true_eq]
          exact fun h => hne h.symm),
        List.find?_cons_of_neg _ (by
          simp only [decide_eq_true_eq, hp]
          exact fun h => hne h.symm), ih]
    · rw [if_neg hp]
      by_cases hq : p.1 = k'
      · rw [List.find?_cons_of_pos _ (by simp [hq]),
          List.find?_cons_of_pos _ (by simp [hq])]
      · rw [List.find?_cons_of_neg _ (by simp [hq]),
          List.find?_cons_of_neg _ (by simp [hq]), ih]

theorem find_append_none {l1 l2 : List (String × JVal)}
    {p : String × JVal → Bool} (h : l1.find? p = none) :
    (l1 ++ l2).find? p = l2.find? p := by
  induction l1 with
  | nil => rfl
  | cons a l1 ih =>
    rw [List.cons_append]
    by_cases ha : p a = true
    · rw [List.find?_cons_of_pos _ ha] at h
      exact absurd h (by simp)
    · rw [List.find?_cons_of_neg _ ha] at h
      rw [List.find?_cons_of_neg _ ha]
      exact ih h

theorem find_append_some {l1 l2 : List (String × JVal)}
    {p : String × JVal → Bool} {a : String × JVal}
    (h : l1.find? p = some a) : (l1 ++ l2).find? p = some a := by
  induction l1 with
  | nil => simp at h
  | cons b l1 ih =>
    rw [List.cons_append]
    by_cases hb : p b = true
    · rw [List.find?_cons_of_pos _ hb] at h
      rw [List.find?_cons_of_pos _ hb]
      exact h
    · rw [List.find?_cons_of_neg _ hb] at h
      rw [List.find?_cons_of_neg _ hb]
      exact ih h

/-- JS property write then read of the same key yields the written
value. -/
theorem jsGet_insert_self (es : List (String × JVal)) (k : String)
    (v : JVal) : JVal.jsGet (JVal.jsInsert es k v) k = some v := by
  rw [JVal.jsInsert]
  by_cases h : (JVal.keysOf es).contains k
  · rw [if_pos h, JVal.jsGet, find_repl_mem (by simpa [JVal.keysOf] using h)]
    rfl
  · rw [if_neg h, JVal.jsGet]
    have hk : k ∉ es.map Prod.fst := by simpa [JVal.keysOf] using h
    have hnone : es.find? (fun p => p.1 = k) = none := by
      rw [List.find?_eq_none]
      intro x hx
      simp only [decide_eq_true_eq]
      intro hxk
      exact hk (hxk ▸ List.mem_map_of_mem Prod.fst hx)
    rw [find_append_none hnone]
    simp

/-- JS property write leaves every other key's value unchanged. -/
theorem jsGet_insert_other {k k' : String} (es : List (String × JVal))
    (v : JVal) (hne : k' ≠ k) :
    JVal.jsGet (JVal.jsInsert es k v) k' = JVal.jsGet es k' := by
  rw [JVal.jsInsert]
  by_cases h : (JVal.keysOf es).contains k
  · rw [if_pos h, JVal.jsGet, find_repl_other hne, JVal.jsGet]
  · rw [if_neg h, JVal.jsGet, JVal.jsGet]
    cases hf : es.find? (fun p => p.1 = k') with
    | some a => simp [find_append_some hf, hf]
    | none =>
      rw [find_append_none hf]
      rw [List.find?_cons_of_neg _ (by
        simp only [decide_eq_true_eq]
        exact fun h => hne h.symm)]
      rfl

/-- Building an object literal from unique-keyed entries reproduces the
entries. -/
theorem jsObjOf_eq_self {es : List (String × JVal)}
    (h : (JVal.keysOf es).Nodup) : JVal.jsObjOf es = es := by
  have aux : ∀ (es acc : List (String × JVal)),
      (acc.map Prod.fst ++ es.map Prod.fst).Nodup →
      es.foldl (fun acc p => JVal.jsInsert acc p.1 p.2) acc = acc ++ es := by
    intro es
    induction es with
    | nil => intro acc _; simp
    | cons p es ih =>
      intro acc hnd
      obtain ⟨k, v⟩ := p
      simp only [List.map_cons] at hnd
      rw [List.foldl_cons]
      have hknotin : k ∉ acc.map Prod.fst := fun hk =>
        (List.disjoint_of_nodup_append hnd) hk (by simp)
      have hins : JVal.jsInsert acc k v = acc ++ [(k, v)] := by
        rw [JVal.jsInsert, if_neg (by simpa [JVal.keysOf] using hknotin)]
      rw [hins, ih (acc ++ [(k, v)]) ?_]
      · simp
      · have e : (acc ++ [(k, v)]).map Prod.fst ++ es.map Prod.fst
            = acc.map Prod.fst ++ (k :: es.map Prod.fst) := by simp
        rw [e]
        exact hnd
  have := aux es [] (by simpa [JVal.keysOf] using h)
  rw [JVal.jsObjOf, this]
  simp

/-- Flattening an object literal that spreads unique-keyed entries
before explicit properties: the explicit properties are assigned one by
one. -/
theorem jsObjOf_append_of_nodup {es : List (String × JVal)}
    (l : List (String × JVal)) (h : (JVal.keysOf es).Nodup) :
    JVal.jsObjOf (es ++ l)
      = l.foldl (fun acc p => JVal.jsInsert acc p.1 p.2) es := by
  rw [JVal.jsObjOf, List.foldl_append, ← JVal.jsObjOf, jsObjOf_eq_self h]

/-- C4: on every base definition whose `plugins.xwalk.page.template`
path exists (with unique keys at each level, as `JSON.parse`
guarantees), the simple synthesis sets the output definition's `id` to
the target name and its `title` to the formatted target name, keeps
every other top-level property, rebuilds only the `plugins.xwalk.page`
spine, and inside the template region sets exactly `jcr:title` (to the
formatted target name) and `fd:viewType` (to the target name), leaving
every other template property — and every other page property, such as
the resource type — unchanged.  `createSimpleJson` maps this over all
base definitions; for the "icon radio" scenario,
`transformComponentName` yields `icon-radio` and the generated
document's `definitions[0].id` is `icon-radio`. -/
theorem createComponentFiles_simple_spec :
    (∀ (componentName : String) (des pes xes pges tes : List (String × JVal)),
      JVal.jsGet des "plugins" = some (.obj pes) →
      JVal.jsGet pes "xwalk" = some (.obj xes) →
      JVal.jsGet xes "page" = some (.obj pges) →
      JVal.jsGet pges "template" = some (.obj tes) →
      (JVal.keysOf des).Nodup → (JVal.keysOf pes).Nodup →
      (JVal.keysOf xes).Nodup → (JVal.keysOf pges).Nodup →
      (JVal.keysOf tes).Nodup →
      ∃ des' pes' xes' pges' tes',
        simpleDefinitionOf componentName (.obj des) = .ok (.obj des') ∧
        JVal.jsGet des' "id" = some (.str componentName) ∧
        JVal.jsGet des' "title"
          = some (.str (formatComponentName componentName)) ∧
        (∀ k, k ≠ "title" → k ≠ "id" → k ≠ "plugins" →
          JVal.jsGet des' k = JVal.jsGet des k) ∧
        JVal.jsGet des' "plugins" = some (.obj pes') ∧
        (∀ k, k ≠ "xwalk" → JVal.jsGet pes' k = JVal.jsGet pes k) ∧
        JVal.jsGet pes' "xwalk" = some (.obj xes') ∧
        (∀ k, k ≠ "page" → JVal.jsGet xes' k = JVal.jsGet xes k) ∧
        JVal.jsGet xes' "page" = some (.obj pges') ∧
        (∀ k, k ≠ "template" → JVal.jsGet pges' k = JVal.jsGet pges k) ∧
        JVal.jsGet pges' "template" = some (.obj tes') ∧
        JVal.jsGet tes' "jcr:title"
          = some (.str (formatComponentName componentName)) ∧
        JVal.jsGet tes' "fd:viewType" = some (.str componentName) ∧
        (∀ k, k ≠ "jcr:title" → k ≠ "fd:viewType" →
          JVal.jsGet tes' k = JVal.jsGet tes k)) ∧
    transformComponentName "icon radio" = "icon-radio" ∧
    (∃ doc, createSimpleJson "icon-radio" radioGroupData = .ok doc ∧
      definitionsHeadId doc = some (.str "icon-radio")) := by
  refine ⟨?_, by decide, ⟨_, rfl, rfl⟩⟩
  intro componentName des pes xes pges tes hp hx hpg ht nd1 nd2 nd3 nd4 nd5
  refine ⟨(JVal.jsInsert (JVal.jsInsert (JVal.jsInsert des "title" (JVal.str (formatComponentName componentName))) "id" (JVal.str componentName)) "plugins" (.obj (JVal.jsInsert pes "xwalk" (.obj (JVal.jsInsert xes "page" (.obj (JVal.jsInsert pges "template" (.obj (JVal.jsInsert (JVal.jsInsert tes "jcr:title" (JVal.str (formatComponentName componentName))) "fd:viewType" (JVal.str componentName)))))))))),
    (JVal.jsInsert pes "xwalk" (.obj (JVal.jsInsert xes "page" (.obj (JVal.jsInsert pges "template" (.obj (JVal.jsInsert (JVal.jsInsert tes "jcr:title" (JVal.str (formatComponentName componentName))) "fd:viewType" (JVal.str componentName)))))))),
    (JVal.jsInsert xes "page" (.obj (JVal.jsInsert pges "template" (.obj (JVal.jsInsert (JVal.jsInsert tes "jcr:title" (JVal.str (formatComponentName componentName))) "fd:viewType" (JVal.str componentName)))))),
    (JVal.jsInsert pges "template" (.obj (JVal.jsInsert (JVal.jsInsert tes "jcr:title" (JVal.str (formatComponentName componentName))) "fd:viewType" (JVal.str componentName)))),
    (JVal.jsInsert (JVal.jsInsert tes "jcr:title" (JVal.str (formatComponentName componentName))) "fd:viewType" (JVal.str componentName)),
    ?_, ?_, ?_, ?_, ?_, ?_, ?_, ?_, ?_, ?_, ?_, ?_, ?_, ?_⟩
  · -- run of the builder
    have m1 : jsMember (.obj des) "plugins" = .ok (.obj pes) := by
      rw [jsMember, hp]
    have m2 : jsMember (JVal.obj pes) "xwalk" = .ok (.obj xes) := by
      rw [jsMember, hx]
    have m3 : jsMember (JVal.obj xes) "page" = .ok (.obj pges) := by
      rw [jsMember, hpg]
    have m4 : jsMember (JVal.obj pges) "template" = .ok (.obj tes) := by
      rw [jsMember, ht]
    simp only [simpleDefinitionOf, m1, m2, m3, m4, JVal.spreadEntries]
    rw [jsObjOf_append_of_nodup _ nd5, jsObjOf_append_of_nodup _ nd4,
      jsObjOf_append_of_nodup _ nd3, jsObjOf_append_of_nodup _ nd2,
      jsObjOf_append_of_nodup _ nd1]
    simp only [List.foldl_cons, List.foldl_nil]
  · rw [jsGet_insert_other _ _ (by decide), jsGet_insert_self]
  · rw [jsGet_insert_other _ _ (by decide),
      jsGet_insert_other _ _ (by decide), jsGet_insert_self]
  · intro k hk1 hk2 hk3
    rw [jsGet_insert_other _ _ hk3, jsGet_insert_other _ _ hk2,
      jsGet_insert_other _ _ hk1]
  · rw [jsGet_insert_self]
  · intro k hk
    rw [jsGet_insert_other _ _ hk]
  · rw [jsGet_insert_self]
  · intro k hk
    rw [jsGet_insert_other _ _ hk]
  · rw [jsGet_insert_self]
  · intro k hk
    rw [jsGet_insert_other _ _ hk]
  · rw [jsGet_insert_self]
  · rw [jsGet_insert_other _ _ (by decide), jsGet_insert_self]
  · rw [jsGet_insert_self]
  · intro k hk1 hk2
    rw [jsGet_insert_other _ _ hk2, jsGet_insert_other _ _ hk1]

/-- Witness for C4: the per-definition statement applied to the concrete
radio-group base definition. -/
theorem createComponentFiles_simple_spec_witness :
    ∃ d, simpleDefinitionOf "icon-radio" (.obj rgDes) = .ok d := by
  obtain ⟨des', _, _, _, _, hrun, _⟩ :=
    createComponentFiles_simple_spec.1 "icon-radio" rgDes rgPes rgXes rgPges
      rgTes rfl rfl rfl rfl (by decide) (by decide) (by decide) (by decide)
      (by decide)
  exact ⟨_, hrun⟩

/-- C8: the argument list is split on commas exactly when one single
argument containing a comma was supplied (otherwise each argument is one
spec); within a spec the identifier is everything before the first colon
and the custom name is the remainder re-joined on colons (so it may
itself contain colons); a colon followed by an empty or whitespace-only
custom name is a validation error; a spec without a colon gets the
component's own display name. -/
theorem parseComponentSpecs_spec :
    (∀ s : String, s.data.contains ',' = true →
      componentSpecsOf [s]
        = (splitOnChar ',' s.data).map (fun e => String.mk (trimChars e))) ∧
    (∀ specs : List String,
      (∀ s, specs = [s] → s.data.contains ',' = false) →
      componentSpecsOf specs = specs) ∧
    (∀ comps c, findComponentBySpec comps "a" = some c →
      parseComponentSpecs ["--composite", "n", "a:b:c"] comps
        = .ok [{ component := c, customName := .str "b:c" }]) ∧
    (∀ comps c, findComponentBySpec comps "a" = some c →
      parseComponentSpecs ["--composite", "n", "a:"] comps
        = .error ("Custom name cannot be empty for component 'a'. " ++
            "Use 'component:name' or just 'component'.")) ∧
    (∀ comps c, findComponentBySpec comps "a" = some c →
      parseComponentSpecs ["--composite", "n", "a: "] comps
        = .error ("Custom name cannot be empty for component 'a'. " ++
            "Use 'component:name' or just 'component'.")) ∧
    (∀ comps c, findComponentBySpec comps "a" = some c →
      parseComponentSpecs ["--composite", "n", "a"] comps
        = .ok [{ component := c, customName := c.name }]) := by
  refine ⟨?_, ?_, ?_, ?_, ?_, ?_⟩
  · intro s h
    rw [componentSpecsOf, if_pos h]
  · intro specs h
    match specs with
    | [] => rfl
    | [s] =>
      have hc := h s rfl
      rw [componentSpecsOf,
        if_neg (fun hcon => Bool.false_ne_true (hc ▸ hcon))]
    | s :: t :: ss => rfl
  · intro comps c hf
    have e2 : parseOneSpec comps "a:b:c"
        = (match findComponentBySpec comps "a" with
           | none => Except.error "Component 'a' not found."
           | some component =>
             Except.ok { component := component,
                         customName := JVal.str "b:c" }) := rfl
    show parseSpecsList comps ["a:b:c"] = _
    rw [parseSpecsList]
    simp only [e2, hf]
    rfl
  · intro comps c hf
    have e2 : parseOneSpec comps "a:"
        = (match findComponentBySpec comps "a" with
           | none => Except.error "Component 'a' not found."
           | some component =>
             Except.error ("Custom name cannot be empty for component " ++
               "'a'. Use 'component:name' or just 'component'.")) := rfl
    show parseSpecsList comps ["a:"] = _
    rw [parseSpecsList]
    simp only [e2, hf]
    rfl
  · intro comps c hf
    have e2 : parseOneSpec comps "a: "
        = (match findComponentBySpec comps "a" with
           | none => Except.error "Component 'a' not found."
           | some component =>
             Except.error ("Custom name cannot be empty for component " ++
               "'a'. Use 'component:name' or just 'component'.")) := rfl
    show parseSpecsList comps ["a: "] = _
    rw [parseSpecsList]
    simp only [e2, hf]
    rfl
  · intro comps c hf
    have e2 : parseOneSpec comps "a"
        = (match findComponentBySpec comps "a" with
           | none => Except.error "Component 'a' not found."
           | some component =>
             Except.ok { component := component,
                         customName := component.name }) := rfl
    show parseSpecsList comps ["a"] = _
    rw [parseSpecsList]
    simp only [e2, hf]
    rfl

/-- Witness for C8: the comma-splitting clause and the colon-handling
clauses applied at a concrete component list. -/
theorem parseComponentSpecs_spec_witness :
    componentSpecsOf ["a,b"]
      = (splitOnChar ',' "a,b".data).map (fun e => String.mk (trimChars e)) ∧
    parseComponentSpecs ["--composite", "n", "a:b:c"] [aComp]
      = .ok [{ component := aComp, customName := .str "b:c" }] ∧
    parseComponentSpecs ["--composite", "n", "a"] [aComp]
      = .ok [{ component := aComp, customName := aComp.name }] ∧
    parseComponentSpecs ["--composite", "n", "a:"] [aComp]
      = .error ("Custom name cannot be empty for component 'a'. " ++
          "Use 'component:name' or just 'component'.") :=
  ⟨parseComponentSpecs_spec.1 "a,b" rfl,
   parseComponentSpecs_spec.2.2.1 [aComp] aComp rfl,
   parseComponentSpecs_spec.2.2.2.2.2 [aComp] aComp rfl,
   parseComponentSpecs_spec.2.2.2.1 [aComp] aComp rfl⟩

/-- C9 (amended): a rejected programmatic request never leaves a
component *file* behind and never edits the shared configuration
documents; failures raised before directory creation (name validation,
catalog enumeration, base/spec resolution, name conflict) leave the
filesystem completely unchanged, while a failure inside component-file
creation — such as a missing panel definition during composite
synthesis — occurs after `mkdirSync` and leaves exactly the empty
target directory behind.  (The original claim that *no* directory is
ever left behind is refuted by the counterexample.) -/
theorem runProgrammatic_no_partial_writes :
    ∀ (w : World) (cache : Cache) (args : List String) (e : String),
      (runProgrammatic w cache args).1 = .error e →
      (runProgrammatic w cache args).2.1.componentFiles = w.componentFiles ∧
      (runProgrammatic w cache args).2.1.formJson = w.formJson ∧
      (runProgrammatic w cache args).2.1.componentDef = w.componentDef ∧
      (runProgrammatic w cache args).2.1.formComponents = w.formComponents ∧
      ((runProgrammatic w cache args).2.1 = w ∨
       (runProgrammatic w cache args).2.1
         = { w with componentDirs := w.componentDirs ++
             [transformComponentName (args.getD 1 "")] }) := by
  intro w cache args e h
  rw [runProgrammatic] at h ⊢
  cases hv : validateComponentName w.componentDirs
      (transformComponentName (args.getD 1 "")) with
  | some msg =>
    simp only [hv] at h ⊢
    exact ⟨trivial, trivial, trivial, trivial, Or.inl trivial⟩
  | none =>
    simp only [hv] at h ⊢
    rcases hga : getAllFormComponents cache w.formComponents with ⟨res1, c1⟩
    cases res1 with
    | error e1 =>
      simp only [hga] at h ⊢
      exact ⟨trivial, trivial, trivial, trivial, Or.inl trivial⟩
    | ok allComponents =>
      simp only [hga] at h ⊢
      cases hd : resolveScaffoldData args allComponents with
      | error e2 =>
        simp only [hd] at h ⊢
        exact ⟨trivial, trivial, trivial, trivial, Or.inl trivial⟩
      | ok data =>
        simp only [hd] at h ⊢
        by_cases hex : w.componentDirs.contains
            (transformComponentName (args.getD 1 "")) = true
        · simp only [hex, if_true] at h ⊢
          exact ⟨trivial, trivial, trivial, trivial, Or.inl trivial⟩
        · simp only [Bool.not_eq_true] at hex
          simp only [hex, Bool.false_eq_true, if_false] at h ⊢
          rcases hc : createComponentFiles c1 w.formComponents
              (transformComponentName (args.getD 1 "")) data with ⟨resC, c2⟩
          cases resC with
          | error e3 =>
            simp only [hc] at h ⊢
            exact ⟨trivial, trivial, trivial, trivial, Or.inr trivial⟩
          | ok files =>
            simp only [hc] at h
            exact absurd h (by simp)

/-- C9 (counterexample): the composite request "survey" over the
text-input base is rejected with a NotFound failure (the panel
definition document is missing), yet the target directory
`survey` — absent before the invocation — exists afterwards: a partial
(empty) component directory is left behind by a rejected request. -/
theorem runProgrammatic_partial_dir_cex :
    (runProgrammatic worldNoPanel [] ["--composite", "survey", "text-input"]).1
      = .error ("Failed to create composite component 'survey': " ++
          "Component definition not found: _panel.json") ∧
    worldNoPanel.componentDirs = [] ∧
    (runProgrammatic worldNoPanel []
      ["--composite", "survey", "text-input"]).2.1.componentDirs
      = ["survey"] ∧
    (runProgrammatic worldNoPanel []
      ["--composite", "survey", "text-input"]).2.1.componentFiles = [] := by
  refine ⟨rfl, rfl, rfl, rfl⟩

/-- Witness for C9 (amended): the no-partial-writes theorem applied to
the concrete rejected "survey" request. -/
theorem runProgrammatic_no_partial_writes_witness :
    (runProgrammatic worldNoPanel []
      ["--composite", "survey", "text-input"]).2.1.componentFiles
      = worldNoPanel.componentFiles ∧
    (runProgrammatic worldNoPanel []
      ["--composite", "survey", "text-input"]).2.1.formJson
      = worldNoPanel.formJson ∧
    (runProgrammatic worldNoPanel []
      ["--composite", "survey", "text-input"]).2.1.componentDef
      = worldNoPanel.componentDef ∧
    (runProgrammatic worldNoPanel []
      ["--composite", "survey", "text-input"]).2.1.formComponents
      = worldNoPanel.formComponents ∧
    ((runProgrammatic worldNoPanel []
      ["--composite", "survey", "text-input"]).2.1 = worldNoPanel ∨
     (runProgrammatic worldNoPanel []
      ["--composite", "survey", "text-input"]).2.1
       = { worldNoPanel with componentDirs := worldNoPanel.componentDirs ++
           [transformComponentName
             (["--composite", "survey", "text-input"].getD 1 "")] }) :=
  runProgrammatic_no_partial_writes worldNoPanel []
    ["--composite", "survey", "text-input"]
    ("Failed to create composite component 'survey': " ++
      "Component definition not found: _panel.json") rfl

